import Mathlib

/-!
# mem-test-exec: executing machine code from different memory regions

A shallow embedding of `src/mem-test-exec.c`.

* The process is a function from a `World` (the trace of calls made so far, the
  byte memory and whether the SIGSEGV handler is installed) to a `Step`: either
  the computation goes on with a value, or the process has halted.
* Everything the operating system and the hardware decide (the value every OS
  primitive returns, the addresses of the static and automatic objects, whether
  a store or a jump into a region faults) is read from an `Env`, over which the
  theorems quantify.
* Unsigned 64-bit arithmetic (`size_t`, `uintptr_t`) is `Nat` with an explicit
  `% 2 ^ 64` (`add64`, `sub64`, `neg64`, `toSizeT`); conversion to `int` is
  `toInt32`. Addresses are values below `2 ^ 64`.
-/

namespace MemTestExec

/-! ## Machine integers -/

/-- Conversion of an integer value to `size_t` / `uintptr_t` (64 bits, unsigned). -/
@[irreducible] def toSizeT (x : Int) : Nat := (x % 2 ^ 64).toNat

/-- Conversion of an integer value to `int` (32 bits, two's complement). -/
@[irreducible] def toInt32 (x : Int) : Int := (x + 2 ^ 31) % 2 ^ 32 - 2 ^ 31

/-- Addition on `uintptr_t` / `size_t`. -/
@[irreducible] def add64 (a b : Nat) : Nat := (a + b) % 2 ^ 64

/-- Subtraction on `uintptr_t` / `size_t`. -/
@[irreducible] def sub64 (a b : Nat) : Nat := (a + 2 ^ 64 - b % 2 ^ 64) % 2 ^ 64

/-- Unary minus on `size_t`. -/
@[irreducible] def neg64 (a : Nat) : Nat := (2 ^ 64 - a % 2 ^ 64) % 2 ^ 64

/-- Pointer arithmetic `p + off` on a `char *`. -/
def ptr_add (p : Nat) (off : Int) : Nat := toSizeT ((p : Int) + off)

/-- The value of `EXIT_FAILURE` in `stdlib.h`. -/
def EXIT_FAILURE : Int := 1

/-- The number of the signal SIGSEGV in `signal.h` (Linux). -/
def SIGSEGV : Int := 11

/-! ## The instruction bytes -/

/-- The array `unsigned char code[]` (source lines 55-61). -/
def code : List Nat :=
  [0x55,
   0x48, 0x89, 0xe5,
   0xb8, 0x37, 0x00, 0x00, 0x00,
   0xc9,
   0xc3]

/-- The value of `sizeof(code)`. -/
def sizeof_code : Nat := code.length

/-- The size of `unsigned char bss_code[sizeof(code)]`. -/
def sizeof_bss_code : Nat := sizeof_code

/-- The size of the local `unsigned char stack_code[sizeof(code)]`. -/
def sizeof_stack_code : Nat := sizeof_code

/-- The 32-bit little-endian value stored at byte offsets `off .. off + 3`. -/
def le32 (bytes : List Nat) (off : Nat) : Nat :=
  bytes.getD off 0 + 2 ^ 8 * bytes.getD (off + 1) 0 + 2 ^ 16 * bytes.getD (off + 2) 0
    + 2 ^ 24 * bytes.getD (off + 3) 0

/-! ## The five instructions named in the comments of `code`

`push %rbp`, `mov %rsp,%rbp`, `mov $imm32,%eax`, `leaveq`, `retq`, on a
processor state holding the three registers they touch and the stack as a map
from addresses to 64-bit words. -/

structure Cpu where
  rax : Nat
  rbp : Nat
  rsp : Nat
  stack : Nat → Nat

/-- Store of a 64-bit word on the stack. -/
def Cpu.store (c : Cpu) (a v : Nat) : Nat → Nat := fun b => if b = a then v else c.stack b

/-- The five instructions. -/
inductive Instr where
  | push_rbp
  | mov_rsp_rbp
  | mov_imm_eax (imm : Nat)
  | leaveq
  | retq
  deriving DecidableEq, Repr

/-- Decodes the instruction at the head of the bytes, with the encodings the
comments of `code` give: `55`, `48 89 e5`, `b8 imm32`, `c9`, `c3`; the result
is the instruction and the bytes after it. -/
def decode : List Nat → Option (Instr × List Nat)
  | [] => none
  | op :: rest =>
    if op = 0x55 then some (Instr.push_rbp, rest)
    else if op = 0xc9 then some (Instr.leaveq, rest)
    else if op = 0xc3 then some (Instr.retq, rest)
    else if op = 0x48 then
      match rest with
      | m :: r :: rest2 => if m = 0x89 ∧ r = 0xe5 then some (Instr.mov_rsp_rbp, rest2) else none
      | _ => none
    else if op = 0xb8 then
      match rest with
      | b0 :: b1 :: b2 :: b3 :: rest2 => some (Instr.mov_imm_eax (le32 [b0, b1, b2, b3] 0), rest2)
      | _ => none
    else none

/-- The effect of an instruction other than `retq` on the processor state; a
write to `eax` clears the upper half of `rax`. -/
def exec_instr : Instr → Cpu → Cpu
  | Instr.push_rbp, c => { c with rsp := sub64 c.rsp 8, stack := c.store (sub64 c.rsp 8) c.rbp }
  | Instr.mov_rsp_rbp, c => { c with rbp := c.rsp }
  | Instr.mov_imm_eax imm, c => { c with rax := imm }
  | Instr.leaveq, c => { c with rbp := c.stack c.rbp, rsp := add64 c.rbp 8 }
  | Instr.retq, c => c

/-- Runs at most `fuel` instructions of the bytes as straight-line code up to
the first `retq`; the result is the value of `rax` and the address `retq`
jumps to. Every instruction takes at least one byte, so the length of the
bytes is fuel enough. -/
def x86_run : Nat → List Nat → Cpu → Option (Nat × Nat)
  | 0, _, _ => none
  | fuel + 1, bytes, c =>
    match decode bytes with
    | none => none
    | some (Instr.retq, _) => some (c.rax, c.stack c.rsp)
    | some (i, rest) => x86_run fuel rest (exec_instr i c)

/-! ## C strings and printf -/

/-- The function `strcmp` on the characters before the terminating NUL: the
difference of the first two characters that differ, the end of a string
counting as the NUL character. -/
def strcmpAux : List Char → List Char → Int
  | [], [] => 0
  | [], b :: _ => 0 - (b.toNat : Int)
  | a :: _, [] => (a.toNat : Int) - 0
  | a :: as, b :: bs => if a = b then strcmpAux as bs else (a.toNat : Int) - (b.toNat : Int)

def strcmp (a b : String) : Int := strcmpAux a.toList b.toList

/-- An argument of `printf`: `%s` (a null pointer is `none`), `%d`, `%lx`. -/
inductive Arg where
  | str (s : Option String)
  | int (v : Int)
  | ulong (v : Nat)
  deriving DecidableEq, Repr

/-- The text `printf` writes for a format and its arguments, for the three
conversions the program uses. -/
def renderAux : List Char → List Arg → List Char
  | '%' :: 's' :: cs, Arg.str s :: rest => (s.getD "(null)").toList ++ renderAux cs rest
  | '%' :: 'd' :: cs, Arg.int v :: rest => (toString v).toList ++ renderAux cs rest
  | '%' :: 'l' :: 'x' :: cs, Arg.ulong v :: rest =>
      Nat.toDigits 16 v ++ renderAux cs rest
  | c :: cs, args => c :: renderAux cs args
  | [], _ => []

def render (fmt : String) (args : List Arg) : String := String.mk (renderAux fmt.toList args)

/-! ## Events, environment, process -/

/-- Page protection bits `PROT_READ`, `PROT_WRITE`, `PROT_EXEC`. -/
structure Prot where
  r : Bool
  w : Bool
  x : Bool
  deriving DecidableEq, Repr

/-- One observable step of the process: a call of a library or OS primitive with
its arguments and the value it returned, an invocation of a region as a
function, or the delivery of SIGSEGV. -/
inductive Event where
  | sigaction (rc : Int)
  | printf (fmt : String) (args : List Arg)
  | perror (msg : String)
  | memcpy (dst src n : Nat)
  | sysconf (ret : Int)
  | malloc (size ret : Nat)
  | memalign (alignment size ret : Nat)
  | free (ptr : Nat)
  | mmap (len : Nat) (prot : Prot) (fd : Int) (ret : Nat)
  | mprotect (addr len : Nat) (prot : Prot) (rc : Int)
  | munmap (addr len : Nat) (rc : Int)
  | shm_open (name : String) (creat : Bool) (mode : Nat) (fd : Int)
  | ftruncate (fd : Int) (len : Nat) (rc : Int)
  | close (fd : Int) (rc : Int)
  | shm_unlink (name : String) (rc : Int)
  | ftok (path : String) (proj : Char) (key : Int)
  | shmget (key : Int) (size : Nat) (perm : Nat) (creat : Bool) (id : Int)
  | shmat (id : Int) (ret : Nat)
  | shmdt (addr : Nat) (rc : Int)
  | shmctl_rmid (id : Int) (rc : Int)
  | call (addr : Nat)
  | sigsegv (addr : Nat)
  deriving DecidableEq, Repr

/-- What the operating system, the loader and the hardware decide in one run. -/
structure Env where
  sigaction_rc : Int
  sysconf_ret : Int
  malloc_ret : Nat
  memalign_ret : Nat
  mmap_ret : Nat
  mprotect_rc : Int
  munmap_rc : Int
  shm_open_fd : Int
  ftruncate_rc : Int
  close_rc : Int
  shm_unlink_rc : Int
  ftok_key : Int
  shmget_id : Int
  shmat_ret : Nat
  shmdt_rc : Int
  shmctl_rc : Int
  /-- Address of the array `code` in the data segment. -/
  code_addr : Nat
  /-- Address of the array `bss_code`. -/
  bss_addr : Nat
  /-- Address of the local array `stack_code`. -/
  stack_addr : Nat
  /-- Memory image before the loader places `code`. -/
  mem0 : Nat → Nat
  /-- The faulting address when the store of `memcpy` raises SIGSEGV. -/
  copy_fault : Option Nat
  /-- The faulting address when the jump into the region raises SIGSEGV. -/
  call_fault : Option Nat
  /-- Registers and stack at the call instruction. -/
  cpu : Cpu
  /-- The address of the instruction after the call. -/
  ret_addr : Nat

/-- How a process ends: `exit(status)` (or return from `main`), death by a
signal, or control lost in bytes that are not the modelled instructions. -/
inductive Halt where
  | exit (status : Int)
  | signal (sig : Int)
  | crash
  deriving DecidableEq, Repr

structure World where
  trace : List Event
  mem : Nat → Nat
  handler : Bool

inductive Step (α : Type) where
  | ok (a : α) (w : World)
  | halt (h : Halt) (w : World)

def Proc (α : Type) : Type := World → Step α

def Proc.pure {α : Type} (a : α) : Proc α := fun w => Step.ok a w

/-- Sequencing: a halted process stays halted. -/
def Step.bind {α β : Type} : Step α → (α → World → Step β) → Step β
  | Step.ok a w, f => f a w
  | Step.halt h w, _ => Step.halt h w

def Proc.bind {α β : Type} (x : Proc α) (f : α → Proc β) : Proc β := fun w => (x w).bind f

instance : Monad Proc where
  pure := Proc.pure
  bind := Proc.bind

/-! ## Primitives -/

/-- Appends an event to the trace. -/
def emit (e : Event) : Proc Unit := fun w => Step.ok () { w with trace := w.trace ++ [e] }

/-- The library function `exit`. -/
def exit {α : Type} (status : Int) : Proc α := fun w => Step.halt (Halt.exit status) w

def printf (fmt : String) (args : List Arg) : Proc Unit := emit (Event.printf fmt args)

def perror (msg : String) : Proc Unit := emit (Event.perror msg)

/-- The definition `handle_error(msg)`: `perror(msg); exit(EXIT_FAILURE);`. -/
def handle_error {α : Type} (msg : String) : Proc α := do
  perror msg
  exit EXIT_FAILURE

/-- The format of the message of `sigsegv_handler` (source line 73). -/
def sigsegv_fmt : String := "SIGSEGV(%d) recieved at address: 0x%lx.\n"

/-- The function `sigsegv_handler` (source lines 71-75). -/
def sigsegv_handler {α : Type} (sig : Int) (si_addr : Nat) : Proc α := do
  printf sigsegv_fmt [Arg.int sig, Arg.ulong si_addr]
  exit EXIT_FAILURE

/-- Delivery of SIGSEGV for an access to `addr`: the installed handler runs, or,
with no handler, the default action kills the process. -/
def raise_sigsegv {α : Type} (addr : Nat) : Proc α := fun w =>
  let w1 : World := { w with trace := w.trace ++ [Event.sigsegv addr] }
  if w.handler then sigsegv_handler SIGSEGV addr w1 else Step.halt (Halt.signal SIGSEGV) w1

/-- The call `sigaction(SIGSEGV, &sa, NULL)` with `sa.sa_sigaction = sigsegv_handler`:
on success the handler is installed. -/
def sigaction (env : Env) : Proc Int := fun w =>
  Step.ok env.sigaction_rc
    { w with trace := w.trace ++ [Event.sigaction env.sigaction_rc],
             handler := w.handler || (env.sigaction_rc != -1) }

/-- The `n` bytes of memory at `a`. -/
def readBytes (m : Nat → Nat) (a n : Nat) : List Nat := (List.range n).map (fun i => m (a + i))

/-- Memory after the bytes `bs` are placed at `a`. -/
def writeBytes (m : Nat → Nat) (a : Nat) (bs : List Nat) : Nat → Nat := fun b =>
  if a ≤ b ∧ b < a + bs.length then bs.getD (b - a) 0 else m b

/-- The call `memcpy(dst, src, n)`: the store faults, or the bytes are copied. -/
def memcpy (env : Env) (dst src n : Nat) : Proc Unit := do
  emit (Event.memcpy dst src n)
  match env.copy_fault with
  | some a => raise_sigsegv a
  | none => fun w => Step.ok () { w with mem := writeBytes w.mem dst (readBytes w.mem src n) }

def sysconf (env : Env) : Proc Int := do
  emit (Event.sysconf env.sysconf_ret)
  pure env.sysconf_ret

def malloc (env : Env) (size : Nat) : Proc Nat := do
  emit (Event.malloc size env.malloc_ret)
  pure env.malloc_ret

def memalign (env : Env) (alignment size : Nat) : Proc Nat := do
  emit (Event.memalign alignment size env.memalign_ret)
  pure env.memalign_ret

def mmap (env : Env) (len : Nat) (prot : Prot) (fd : Int) : Proc Nat := do
  emit (Event.mmap len prot fd env.mmap_ret)
  pure env.mmap_ret

def mprotect (env : Env) (addr len : Nat) (prot : Prot) : Proc Int := do
  emit (Event.mprotect addr len prot env.mprotect_rc)
  pure env.mprotect_rc

def munmap (env : Env) (addr len : Nat) : Proc Int := do
  emit (Event.munmap addr len env.munmap_rc)
  pure env.munmap_rc

def shm_open (env : Env) (name : String) (creat : Bool) (mode : Nat) : Proc Int := do
  emit (Event.shm_open name creat mode env.shm_open_fd)
  pure env.shm_open_fd

def ftruncate (env : Env) (fd : Int) (len : Nat) : Proc Int := do
  emit (Event.ftruncate fd len env.ftruncate_rc)
  pure env.ftruncate_rc

def close (env : Env) (fd : Int) : Proc Int := do
  emit (Event.close fd env.close_rc)
  pure env.close_rc

def shm_unlink (env : Env) (name : String) : Proc Int := do
  emit (Event.shm_unlink name env.shm_unlink_rc)
  pure env.shm_unlink_rc

def ftok (env : Env) (path : String) (proj : Char) : Proc Int := do
  emit (Event.ftok path proj env.ftok_key)
  pure env.ftok_key

def shmget (env : Env) (key : Int) (size perm : Nat) (creat : Bool) : Proc Int := do
  emit (Event.shmget key size perm creat env.shmget_id)
  pure env.shmget_id

def shmat (env : Env) (id : Int) : Proc Nat := do
  emit (Event.shmat id env.shmat_ret)
  pure env.shmat_ret

def shmdt (env : Env) (addr : Nat) : Proc Int := do
  emit (Event.shmdt addr env.shmdt_rc)
  pure env.shmdt_rc

def shmctl_rmid (env : Env) (id : Int) : Proc Int := do
  emit (Event.shmctl_rmid id env.shmctl_rc)
  pure env.shmctl_rc

/-- The call `(FUNC)()` of the bytes at `addr`: the jump faults, or the
processor runs the `sizeof(code)` bytes found there; the call has returned when
`retq` jumps to the return address the call pushed. -/
def call_code (env : Env) (addr : Nat) : Proc Nat := do
  emit (Event.call addr)
  match env.call_fault with
  | some a => raise_sigsegv a
  | none => fun w =>
      let sp := sub64 env.cpu.rsp 8
      let c : Cpu := { env.cpu with rsp := sp, stack := env.cpu.store sp env.ret_addr }
      match x86_run sizeof_code (readBytes w.mem addr sizeof_code) c with
      | some (rax, target) => if target = env.ret_addr then Step.ok rax w else Step.halt Halt.crash w
      | none => Step.halt Halt.crash w

/-- The format of the second `printf` of `EXECUTE_FUNC`. -/
def success_fmt : String := "Executed successfully (%d).\n"

/-- The definition `EXECUTE_FUNC(FROM, FUNC)` (source lines 41-43): the first
`printf`, then the call that computes the argument of the second `printf`. -/
def EXECUTE_FUNC (env : Env) (FROM : String) (FUNC : Nat) : Proc Unit := do
  printf ("Executing machine code from '" ++ FROM ++ "': ") []
  let v ← call_code env FUNC
  printf success_fmt [Arg.int (toInt32 v)]

def PROT_RW : Prot := { r := true, w := true, x := false }
def PROT_RWX : Prot := { r := true, w := true, x := true }
def PROT_WX : Prot := { r := false, w := true, x := true }

/-- The value `MAP_FAILED`, also `(char *)(-1)`. -/
def MAP_FAILED : Nat := 2 ^ 64 - 1

/-! ## The probes -/

/-- Execute code off the data segment (source lines 87-89). -/
def execute_from_data_segment (env : Env) : Proc Unit :=
  EXECUTE_FUNC env "data segment" env.code_addr

/-- Execute code off the bss segment (source lines 93-96). -/
def execute_from_bss_segment (env : Env) : Proc Unit := do
  memcpy env env.bss_addr env.code_addr sizeof_code
  EXECUTE_FUNC env "bss segment" env.bss_addr

/-- Execute code off the stack (source lines 102-108). -/
def execute_from_stack (env : Env) : Proc Unit := do
  memcpy env env.stack_addr env.code_addr sizeof_code
  EXECUTE_FUNC env "stack" env.stack_addr

/-- The expression `start & -pagesize` on `uintptr_t` / `size_t` (source line 129). -/
def page_start (start pagesize : Nat) : Nat := start &&& neg64 pagesize

/-- The expression `start + sizeof stack_code` on `uintptr_t` (source line 126). -/
def buffer_end (start : Nat) : Nat := add64 start sizeof_stack_code

/-- The expression `end - pagestart` on `uintptr_t` (source line 131). -/
def protect_len (start pagesize : Nat) : Nat :=
  sub64 (buffer_end start) (page_start start pagesize)

/-- Make the stack executable and execute (source lines 112-138). -/
def execute_from_stack_exec (env : Env) : Proc Unit := do
  memcpy env env.stack_addr env.code_addr sizeof_code
  let pagesize : Nat := toSizeT (← sysconf env)
  let start : Nat := env.stack_addr
  let pagestart : Nat := page_start start pagesize
  let rc ← mprotect env pagestart (protect_len start pagesize) PROT_RWX
  if -1 = rc then do
    perror "mprotect"
    exit 1
  EXECUTE_FUNC env "stack-execed" env.stack_addr

/-- Execute from default malloc memory (source lines 144-151). -/
def execute_from_malloc_rw (env : Env) : Proc Unit := do
  let ptr ← malloc env sizeof_code
  memcpy env ptr env.code_addr sizeof_code
  EXECUTE_FUNC env "malloc memory (rw)" ptr

/-- Execute from page-aligned heap memory made rwx (source lines 154-180). The
products `4 * pagesize` and `pagesize * 2` are taken in the integers: overflow
of `int` is undefined in C. -/
def execute_from_malloc_rw_x (env : Env) : Proc Unit := do
  let pagesize : Int := toInt32 (← sysconf env)
  if pagesize = -1 then
    handle_error "sysconf"
  let buffer ← memalign env (toSizeT pagesize) (toSizeT (4 * pagesize))
  if buffer = 0 then do
    perror "memalign"
    exit EXIT_FAILURE
  printf "Start of region:        0x%lx\n" [Arg.ulong buffer]
  let rc ← mprotect env (ptr_add buffer (pagesize * 2)) (toSizeT pagesize) PROT_RWX
  if rc = -1 then
    handle_error "mprotect"
  memcpy env (ptr_add buffer (pagesize * 2)) env.code_addr sizeof_code
  EXECUTE_FUNC env "malloc memory (rw+x)" (ptr_add buffer (pagesize * 2))

/-- Execute from an anonymous rw mapping (source lines 186-194). -/
def execute_from_mmap_write (env : Env) : Proc Unit := do
  let ptr ← mmap env sizeof_code PROT_RW (-1)
  memcpy env ptr env.code_addr sizeof_code
  EXECUTE_FUNC env "mmap (rw) memory" ptr

/-- Execute from an anonymous rwx mapping (source lines 197-205). -/
def execute_from_mmap_rwx (env : Env) : Proc Unit := do
  let ptr ← mmap env sizeof_code PROT_RWX (-1)
  memcpy env ptr env.code_addr sizeof_code
  EXECUTE_FUNC env "mmap (rwx) memory" ptr

/-- Execute from an anonymous rw mapping made rwx (source lines 208-222). -/
def execute_from_mmap_rw_x (env : Env) : Proc Unit := do
  let ptr ← mmap env sizeof_code PROT_RW (-1)
  memcpy env ptr env.code_addr sizeof_code
  let rc ← mprotect env ptr sizeof_code PROT_RWX
  if -1 = rc then do
    perror "mprotect"
    exit EXIT_FAILURE
  EXECUTE_FUNC env "mmap (rw+x) memory" ptr

/-- The name `mem_key` of the POSIX shared-memory object. -/
def mem_key : String := "ipc-mem-exec-test"

/-- Execute from a mapping made while a POSIX shared-memory object is open
(source lines 228-248); `0777` is 511. -/
def execute_from_shm_open_exec (env : Env) : Proc Unit := do
  let mem_length : Nat := sizeof_code
  let fd ← shm_open env mem_key true 511
  if -1 = fd then do
    perror "shm_open"
    exit 1
  let _ ← ftruncate env fd mem_length
  let ptr ← mmap env mem_length PROT_WX fd
  let _ ← close env fd
  memcpy env ptr env.code_addr mem_length
  EXECUTE_FUNC env "shm_open memory" ptr
  let _ ← munmap env ptr mem_length
  let _ ← shm_unlink env mem_key

/-- Execute from a System V segment made with mode `0666` = 438 (source lines 252-283). -/
def execute_from_shmget_rw (env : Env) : Proc Unit := do
  let key ← ftok env "/bin/bash" 'Z'
  if key = -1 then do
    printf "> /bin/bash\n" []
    perror "ftok"
    exit 1
  let shmid ← shmget env key sizeof_code 438 true
  if shmid = -1 then do
    perror "shmget"
    exit 1
  let ptr ← shmat env shmid
  if ptr = MAP_FAILED then do
    perror "shmat"
    exit 1
  memcpy env ptr env.code_addr sizeof_code
  EXECUTE_FUNC env "shmget (write) memory" ptr
  if (← shmdt env ptr) = -1 then do
    perror "shmdt"
    exit 1
  if -1 = (← shmctl_rmid env shmid) then do
    perror "shmctl"
    exit 1

/-- Execute from a System V segment made with mode `0777` = 511 (source lines 286-317). -/
def execute_from_shmget_rwx (env : Env) : Proc Unit := do
  let key ← ftok env "/bin/bash" 'Z'
  if key = -1 then do
    printf "> /bin/bash\n" []
    perror "ftok"
    exit 1
  let shmid ← shmget env key sizeof_code 511 true
  if shmid = -1 then do
    perror "shmget"
    exit 1
  let ptr ← shmat env shmid
  if ptr = MAP_FAILED then do
    perror "shmat"
    exit 1
  memcpy env ptr env.code_addr sizeof_code
  EXECUTE_FUNC env "shmget (write) memory" ptr
  if (← shmdt env ptr) = -1 then do
    perror "shmdt"
    exit 1
  if -1 = (← shmctl_rmid env shmid) then do
    perror "shmctl"
    exit 1

/-- Execute from a System V segment after `mprotect`, whose result is not
looked at (source lines 320-353). -/
def execute_from_shmget_rw_x (env : Env) : Proc Unit := do
  let key ← ftok env "/bin/bash" 'Z'
  if key = -1 then do
    printf "> /bin/bash\n" []
    perror "ftok"
    exit 1
  let shmid ← shmget env key sizeof_code 438 true
  if shmid = -1 then do
    perror "shmget"
    exit 1
  let ptr ← shmat env shmid
  if ptr = MAP_FAILED then do
    perror "shmat"
    exit 1
  memcpy env ptr env.code_addr sizeof_code
  let _ ← mprotect env ptr sizeof_code PROT_RWX
  EXECUTE_FUNC env "shmget (write) memory" ptr
  if (← shmdt env ptr) = -1 then do
    perror "shmdt"
    exit 1
  if -1 = (← shmctl_rmid env shmid) then do
    perror "shmctl"
    exit 1

/-! ## main -/

/-- The format of the usage line (source line 415). -/
def usage_fmt : String :=
  "Usage: %s [data|bss|stack|stack-exec|malloc-rw|malloc-rw-x|mmap-rw|mmap-rwx|mmap-rw-x|shm-open-rwx|shmget-rw|shmget-rwx|shmget-rw-x]\n"

/-- The function `help` (source lines 413-416). -/
def help (prog : Option String) : Proc Unit := printf usage_fmt [Arg.str prog]

/-- The function `main` (source lines 360-411); `argc` is the length of `argv`,
and `argv[argc]` is the null pointer. -/
def main (env : Env) (argv : List String) : Proc Int := do
  if (← sigaction env) = -1 then
    perror "sigaction"
  if argv.length < 2 then do
    help argv.head?
    exit 1
  let arg : String := argv.getD 1 ""
  if strcmp "data" arg = 0 then
    execute_from_data_segment env
  else if strcmp "bss" arg = 0 then
    execute_from_bss_segment env
  else if strcmp "stack" arg = 0 then
    execute_from_stack env
  else if strcmp "stack-exec" arg = 0 then
    execute_from_stack_exec env
  else if strcmp "malloc-rw" arg = 0 then
    execute_from_malloc_rw env
  else if strcmp "malloc-rw-x" arg = 0 then
    execute_from_malloc_rw_x env
  else if strcmp "mmap-rw" arg = 0 then
    execute_from_mmap_write env
  else if strcmp "mmap-rwx" arg = 0 then
    execute_from_mmap_rwx env
  else if strcmp "mmap-rw-x" arg = 0 then
    execute_from_mmap_rw_x env
  else if strcmp "shm-open-rwx" arg = 0 then
    execute_from_shm_open_exec env
  else if strcmp "shmget-rw" arg = 0 then
    execute_from_shmget_rw env
  else if strcmp "shmget-rwx" arg = 0 then
    execute_from_shmget_rwx env
  else if strcmp "shmget-rw-x" arg = 0 then
    execute_from_shmget_rw_x env
  else do
    help argv.head?
    exit 1
  return 0

/-- The world in which `main` starts: nothing has happened, the loader has
placed `code` at its address, no handler is installed. -/
def World.init (env : Env) : World :=
  { trace := [], mem := writeBytes env.mem0 env.code_addr code, handler := false }

/-- The events of a process and the way it ends, given where `main` has come
to; a return of `rc` from `main` is `exit(rc)`. -/
def Step.outcome : Step Int → List Event × Halt
  | Step.ok rc w => (w.trace, Halt.exit rc)
  | Step.halt h w => (w.trace, h)

/-- The events of a whole process run and the way the process ends. -/
def run (env : Env) (argv : List String) : List Event × Halt :=
  (main env argv (World.init env)).outcome

/-- An environment in which every OS call succeeds and nothing faults. -/
def env_ok : Env :=
  { sigaction_rc := 0, sysconf_ret := 4096, malloc_ret := 0x5000, memalign_ret := 0x10000,
    mmap_ret := 0x7f0000000000, mprotect_rc := 0, munmap_rc := 0, shm_open_fd := 3,
    ftruncate_rc := 0, close_rc := 0, shm_unlink_rc := 0, ftok_key := 0x5a010203,
    shmget_id := 7, shmat_ret := 0x7f0000100000, shmdt_rc := 0, shmctl_rc := 0,
    code_addr := 0x404000, bss_addr := 0x405000, stack_addr := 0x7ffc00001234,
    mem0 := fun _ => 0, copy_fault := none, call_fault := none,
    cpu := { rax := 0, rbp := 0x7ffc00001300, rsp := 0x7ffc00001200, stack := fun _ => 0 },
    ret_addr := 0x401234 }


/-! ## The table of modes -/

/-- The thirteen modes `main` recognises. -/
inductive Mode where
  | data
  | bss
  | stack
  | stack_exec
  | malloc_rw
  | malloc_rw_x
  | mmap_rw
  | mmap_rwx
  | mmap_rw_x
  | shm_open_rwx
  | shmget_rw
  | shmget_rwx
  | shmget_rw_x
  deriving DecidableEq, Repr

/-- The string `main` compares `argv[1]` with (source lines 379-403). -/
def Mode.name : Mode → String
  | Mode.data => "data"
  | Mode.bss => "bss"
  | Mode.stack => "stack"
  | Mode.stack_exec => "stack-exec"
  | Mode.malloc_rw => "malloc-rw"
  | Mode.malloc_rw_x => "malloc-rw-x"
  | Mode.mmap_rw => "mmap-rw"
  | Mode.mmap_rwx => "mmap-rwx"
  | Mode.mmap_rw_x => "mmap-rw-x"
  | Mode.shm_open_rwx => "shm-open-rwx"
  | Mode.shmget_rw => "shmget-rw"
  | Mode.shmget_rwx => "shmget-rwx"
  | Mode.shmget_rw_x => "shmget-rw-x"

/-- The probe `main` calls for the mode (source lines 379-404). -/
def Mode.probe : Mode → Env → Proc Unit
  | Mode.data => execute_from_data_segment
  | Mode.bss => execute_from_bss_segment
  | Mode.stack => execute_from_stack
  | Mode.stack_exec => execute_from_stack_exec
  | Mode.malloc_rw => execute_from_malloc_rw
  | Mode.malloc_rw_x => execute_from_malloc_rw_x
  | Mode.mmap_rw => execute_from_mmap_write
  | Mode.mmap_rwx => execute_from_mmap_rwx
  | Mode.mmap_rw_x => execute_from_mmap_rw_x
  | Mode.shm_open_rwx => execute_from_shm_open_exec
  | Mode.shmget_rw => execute_from_shmget_rw
  | Mode.shmget_rwx => execute_from_shmget_rwx
  | Mode.shmget_rw_x => execute_from_shmget_rw_x

/-- The first argument of `EXECUTE_FUNC` in the probe of the mode. -/
def Mode.label : Mode → String
  | Mode.data => "data segment"
  | Mode.bss => "bss segment"
  | Mode.stack => "stack"
  | Mode.stack_exec => "stack-execed"
  | Mode.malloc_rw => "malloc memory (rw)"
  | Mode.malloc_rw_x => "malloc memory (rw+x)"
  | Mode.mmap_rw => "mmap (rw) memory"
  | Mode.mmap_rwx => "mmap (rwx) memory"
  | Mode.mmap_rw_x => "mmap (rw+x) memory"
  | Mode.shm_open_rwx => "shm_open memory"
  | Mode.shmget_rw => "shmget (write) memory"
  | Mode.shmget_rwx => "shmget (write) memory"
  | Mode.shmget_rw_x => "shmget (write) memory"

/-- The address the probe of the mode invokes as a function. -/
def Mode.target (env : Env) : Mode → Nat
  | Mode.data => env.code_addr
  | Mode.bss => env.bss_addr
  | Mode.stack => env.stack_addr
  | Mode.stack_exec => env.stack_addr
  | Mode.malloc_rw => env.malloc_ret
  | Mode.malloc_rw_x => ptr_add env.memalign_ret (toInt32 env.sysconf_ret * 2)
  | Mode.mmap_rw => env.mmap_ret
  | Mode.mmap_rwx => env.mmap_ret
  | Mode.mmap_rw_x => env.mmap_ret
  | Mode.shm_open_rwx => env.mmap_ret
  | Mode.shmget_rw => env.shmat_ret
  | Mode.shmget_rwx => env.shmat_ret
  | Mode.shmget_rw_x => env.shmat_ret

/-- The names of the thirteen modes. -/
def mode_names : List String :=
  ["data", "bss", "stack", "stack-exec", "malloc-rw", "malloc-rw-x", "mmap-rw", "mmap-rwx",
   "mmap-rw-x", "shm-open-rwx", "shmget-rw", "shmget-rwx", "shmget-rw-x"]

/-- The function `main` once `argv[1]` has been found to name the mode `m`. -/
def mode_main (env : Env) (m : Mode) : Proc Int := do
  if (← sigaction env) = -1 then
    perror "sigaction"
  m.probe env
  return 0

/-- The function `main` once the arguments have been found to name no mode. -/
def usage_main (env : Env) (argv : List String) : Proc Int := do
  if (← sigaction env) = -1 then
    perror "sigaction"
  help argv.head?
  exit 1

/-- The world after the first statement of `main`, when the process starts
from `World.init`. -/
def World.registered (env : Env) : World :=
  { trace := if env.sigaction_rc = -1
      then [Event.sigaction env.sigaction_rc, Event.perror "sigaction"]
      else [Event.sigaction env.sigaction_rc],
    mem := writeBytes env.mem0 env.code_addr code,
    handler := env.sigaction_rc != -1 }

/-! ## Outcomes in closed form

The events of a run written as a list, for each way the run can go. -/

/-- The outcome `r` after the events `es`. -/
def after (es : List Event) (r : List Event × Halt) : List Event × Halt := (es ++ r.1, r.2)

/-- The events of the first statement of `main`. -/
def sig_events (env : Env) : List Event := (World.registered env).trace

/-- Case distinction on a fault: `f a` when there is one at `a`, else `k`. -/
def onFault {β : Type} (o : Option Nat) (f : Nat → β) (k : β) : β :=
  match o with
  | some a => f a
  | none => k

/-- The end of a run in which SIGSEGV is raised for the address `a`. -/
def segv_end (env : Env) (a : Nat) : List Event × Halt :=
  if env.sigaction_rc = -1 then ([Event.sigsegv a], Halt.signal SIGSEGV)
  else ([Event.sigsegv a, Event.printf sigsegv_fmt [Arg.int SIGSEGV, Arg.ulong a]],
        Halt.exit EXIT_FAILURE)

/-- The copy of `code` to `dst`, then `k`. -/
def copy_then (env : Env) (dst : Nat) (k : List Event × Halt) : List Event × Halt :=
  after [Event.memcpy dst env.code_addr sizeof_code]
    (onFault env.copy_fault (segv_end env) k)

/-- The events of `EXECUTE_FUNC`, then `k`. -/
def exec_then (env : Env) (label : String) (addr : Nat) (k : List Event × Halt) :
    List Event × Halt :=
  after [Event.printf ("Executing machine code from '" ++ label ++ "': ") [], Event.call addr]
    (onFault env.call_fault (segv_end env) (after [Event.printf success_fmt [Arg.int 55]] k))

/-- The end of a run that reports `msg` with `perror` and exits with status 1. -/
def fail_end (msg : String) : List Event × Halt := ([Event.perror msg], Halt.exit 1)

/-- The end of a run that prints the usage line. -/
def usage_end (argv : List String) : List Event × Halt :=
  ([Event.printf usage_fmt [Arg.str argv.head?]], Halt.exit 1)

/-- The end of a run in which `main` returns 0. -/
def return_end : List Event × Halt := ([], Halt.exit 0)

/-- The events of the three System V probes after those of `sigaction`: `perm`
is the mode of the segment, `mid` the events between the copy and the call. -/
def shmget_expected (env : Env) (perm : Nat) (mid : List Event) : List Event × Halt :=
  after [Event.ftok "/bin/bash" 'Z' env.ftok_key]
    (if env.ftok_key = -1 then
      ([Event.printf "> /bin/bash\n" [], Event.perror "ftok"], Halt.exit 1)
    else after [Event.shmget env.ftok_key sizeof_code perm true env.shmget_id]
      (if env.shmget_id = -1 then fail_end "shmget"
      else after [Event.shmat env.shmget_id env.shmat_ret]
        (if env.shmat_ret = MAP_FAILED then fail_end "shmat"
        else copy_then env env.shmat_ret
          (after mid
            (exec_then env "shmget (write) memory" env.shmat_ret
              (after [Event.shmdt env.shmat_ret env.shmdt_rc]
                (if env.shmdt_rc = -1 then fail_end "shmdt"
                else after [Event.shmctl_rmid env.shmget_id env.shmctl_rc]
                  (if -1 = env.shmctl_rc then fail_end "shmctl" else return_end))))))))

/-- The events of the probe of each mode after those of `sigaction`, and the
end of the run. -/
def expected (env : Env) : Mode → List Event × Halt
  | Mode.data => exec_then env "data segment" env.code_addr return_end
  | Mode.bss => copy_then env env.bss_addr (exec_then env "bss segment" env.bss_addr return_end)
  | Mode.stack => copy_then env env.stack_addr (exec_then env "stack" env.stack_addr return_end)
  | Mode.stack_exec =>
      copy_then env env.stack_addr
        (after [Event.sysconf env.sysconf_ret,
                Event.mprotect (page_start env.stack_addr (toSizeT env.sysconf_ret))
                  (protect_len env.stack_addr (toSizeT env.sysconf_ret)) PROT_RWX env.mprotect_rc]
          (if -1 = env.mprotect_rc then fail_end "mprotect"
           else exec_then env "stack-execed" env.stack_addr return_end))
  | Mode.malloc_rw =>
      after [Event.malloc sizeof_code env.malloc_ret]
        (copy_then env env.malloc_ret
          (exec_then env "malloc memory (rw)" env.malloc_ret return_end))
  | Mode.malloc_rw_x =>
      after [Event.sysconf env.sysconf_ret]
        (if toInt32 env.sysconf_ret = -1 then fail_end "sysconf"
         else after [Event.memalign (toSizeT (toInt32 env.sysconf_ret))
                      (toSizeT (4 * toInt32 env.sysconf_ret)) env.memalign_ret]
          (if env.memalign_ret = 0 then fail_end "memalign"
           else after [Event.printf "Start of region:        0x%lx\n" [Arg.ulong env.memalign_ret],
                       Event.mprotect (ptr_add env.memalign_ret (toInt32 env.sysconf_ret * 2))
                         (toSizeT (toInt32 env.sysconf_ret)) PROT_RWX env.mprotect_rc]
            (if env.mprotect_rc = -1 then fail_end "mprotect"
             else copy_then env (ptr_add env.memalign_ret (toInt32 env.sysconf_ret * 2))
              (exec_then env "malloc memory (rw+x)"
                (ptr_add env.memalign_ret (toInt32 env.sysconf_ret * 2)) return_end))))
  | Mode.mmap_rw =>
      after [Event.mmap sizeof_code PROT_RW (-1) env.mmap_ret]
        (copy_then env env.mmap_ret (exec_then env "mmap (rw) memory" env.mmap_ret return_end))
  | Mode.mmap_rwx =>
      after [Event.mmap sizeof_code PROT_RWX (-1) env.mmap_ret]
        (copy_then env env.mmap_ret (exec_then env "mmap (rwx) memory" env.mmap_ret return_end))
  | Mode.mmap_rw_x =>
      after [Event.mmap sizeof_code PROT_RW (-1) env.mmap_ret]
        (copy_then env env.mmap_ret
          (after [Event.mprotect env.mmap_ret sizeof_code PROT_RWX env.mprotect_rc]
            (if -1 = env.mprotect_rc then fail_end "mprotect"
             else exec_then env "mmap (rw+x) memory" env.mmap_ret return_end)))
  | Mode.shm_open_rwx =>
      after [Event.shm_open mem_key true 511 env.shm_open_fd]
        (if -1 = env.shm_open_fd then fail_end "shm_open"
         else after [Event.ftruncate env.shm_open_fd sizeof_code env.ftruncate_rc,
                     Event.mmap sizeof_code PROT_WX env.shm_open_fd env.mmap_ret,
                     Event.close env.shm_open_fd env.close_rc]
          (copy_then env env.mmap_ret
            (exec_then env "shm_open memory" env.mmap_ret
              (after [Event.munmap env.mmap_ret sizeof_code env.munmap_rc,
                      Event.shm_unlink mem_key env.shm_unlink_rc] return_end))))
  | Mode.shmget_rw => shmget_expected env 438 []
  | Mode.shmget_rwx => shmget_expected env 511 []
  | Mode.shmget_rw_x =>
      shmget_expected env 438 [Event.mprotect env.shmat_ret sizeof_code PROT_RWX env.mprotect_rc]

/-! ## Properties of traces -/

/-- Whether the event is a call of `mprotect`. -/
def Event.is_mprotect : Event → Bool
  | Event.mprotect _ _ _ _ => true
  | _ => false

/-- Whether the event releases a region: `free`, `munmap` or `shmdt`. -/
def Event.is_release : Event → Bool
  | Event.free _ => true
  | Event.munmap _ _ _ => true
  | Event.shmdt _ _ => true
  | _ => false

/-- Whether the event is an invocation of a region as a function. -/
def Event.is_call : Event → Bool
  | Event.call _ => true
  | _ => false

/-- Whether the event is the delivery of SIGSEGV. -/
def Event.is_sigsegv : Event → Bool
  | Event.sigsegv _ => true
  | _ => false

/-- Whether every event `e` of the trace for which `f e` is `some (rep, h1)` is
followed by exactly the events `rep`, the process then ending as `h1`; `h` is
the way the process ends. -/
def ends_after (f : Event → Option (List Event × Halt)) (h : Halt) : List Event → Bool
  | [] => true
  | e :: es =>
    (match f e with
     | some (rep, h1) => decide (es = rep) && decide (h = h1)
     | none => true) && ends_after f h es

/-- Whether every `call a` of the trace has, among the events before it, one
that satisfies `ok a`; `seen` holds the events already passed. -/
def calls_guarded (ok : Nat → Event → Bool) : List Event → List Event → Bool
  | _, [] => true
  | seen, e :: es =>
    (match e with
     | Event.call a => seen.any (ok a)
     | _ => true) && calls_guarded ok (seen ++ [e]) es

/-- Whether every `call` of the trace that is not followed by a SIGSEGV comes
right after the event `before` and right before the event `next`; `prev` is the
event passed last. -/
def calls_framed (before next : Event) : Option Event → List Event → Bool
  | _, [] => true
  | prev, e :: es =>
    (match e with
     | Event.call _ =>
       (match es with
        | [] => false
        | e1 :: _ => e1.is_sigsegv || (decide (prev = some before) && decide (e1 = next)))
     | _ => true) && calls_framed before next (some e) es

/-- Whether some `call a` of the trace is followed, at once or later, by an
event that satisfies `rel a`. -/
def released_after_call (rel : Nat → Event → Bool) : List Event → Bool
  | [] => false
  | e :: es =>
    (match e with
     | Event.call a => es.any (rel a)
     | _ => false) || released_after_call rel es

/-! ## The calls whose result a probe tests -/

/-- The report and the end of the process that follow a call whose result the
probe of mode `m` tests, when the call has returned its failure value:
`sysconf` and `memalign` in malloc-rw-x, `mprotect` in stack-exec, malloc-rw-x
and mmap-rw-x, `shm_open`, `ftok`, `shmget`, `shmat`, `shmdt`, `shmctl`. -/
def checked_failure (m : Mode) : Event → Option (List Event × Halt)
  | Event.sysconf ret =>
      if m = Mode.malloc_rw_x ∧ ret = -1 then some ([Event.perror "sysconf"], Halt.exit 1)
      else none
  | Event.memalign _ _ ret =>
      if ret = 0 then some ([Event.perror "memalign"], Halt.exit 1) else none
  | Event.mprotect _ _ _ rc =>
      if m ≠ Mode.shmget_rw_x ∧ rc = -1 then some ([Event.perror "mprotect"], Halt.exit 1)
      else none
  | Event.shm_open _ _ _ fd =>
      if fd = -1 then some ([Event.perror "shm_open"], Halt.exit 1) else none
  | Event.ftok _ _ key =>
      if key = -1 then
        some ([Event.printf "> /bin/bash\n" [], Event.perror "ftok"], Halt.exit 1)
      else none
  | Event.shmget _ _ _ _ id =>
      if id = -1 then some ([Event.perror "shmget"], Halt.exit 1) else none
  | Event.shmat _ ret =>
      if ret = MAP_FAILED then some ([Event.perror "shmat"], Halt.exit 1) else none
  | Event.shmdt _ rc =>
      if rc = -1 then some ([Event.perror "shmdt"], Halt.exit 1) else none
  | Event.shmctl_rmid _ rc =>
      if rc = -1 then some ([Event.perror "shmctl"], Halt.exit 1) else none
  | _ => none

/-- The message and the end of the process that follow the delivery of SIGSEGV
when `sigsegv_handler` is installed. -/
def handled_sigsegv : Event → Option (List Event × Halt)
  | Event.sigsegv a =>
      some ([Event.printf sigsegv_fmt [Arg.int SIGSEGV, Arg.ulong a]], Halt.exit EXIT_FAILURE)
  | _ => none

/-- Whether the event is an `mprotect` with `PROT_READ | PROT_WRITE | PROT_EXEC`
for the region the probe of mode `m` invokes at `a`: from `a` on, and in
stack-exec from the start of the page of `a` up to the end of the buffer. -/
def exec_request (env : Env) (m : Mode) (a : Nat) : Event → Bool
  | Event.mprotect addr len prot _ =>
      decide (prot = PROT_RWX) &&
        (if m = Mode.stack_exec then
          decide (addr = page_start a (toSizeT env.sysconf_ret)
            ∧ len = protect_len a (toSizeT env.sysconf_ret))
         else decide (addr = a))
  | _ => false

/-- The modes whose probe calls `mprotect`. -/
def Mode.reprotects : Mode → Bool
  | Mode.stack_exec => true
  | Mode.malloc_rw_x => true
  | Mode.mmap_rw_x => true
  | Mode.shmget_rw_x => true
  | _ => false

/-- The modes whose probe works on a named shared-memory object. -/
def Mode.shared : Mode → Bool
  | Mode.shm_open_rwx => true
  | Mode.shmget_rw => true
  | Mode.shmget_rwx => true
  | Mode.shmget_rw_x => true
  | _ => false

/-- Whether the event releases the region invoked at `a`: `munmap` or `shmdt`
of that address. -/
def releases (a : Nat) : Event → Bool
  | Event.munmap addr _ _ => decide (addr = a)
  | Event.shmdt addr _ => decide (addr = a)
  | Event.free ptr => decide (ptr = a)
  | _ => false

/-! ## Named shared-memory objects

The names the operating system holds: those of the POSIX shared-memory objects
and the keys of the System V segments. A call has failed when it has returned
its failure value -1. -/

structure Names where
  posix : List String
  sysv : List Int
  deriving DecidableEq, Repr

/-- The names after a name is created, if it is not there yet. -/
def add_name {α : Type} [DecidableEq α] (x : α) (l : List α) : List α :=
  if x ∈ l then l else x :: l

/-- The names after a name is removed. -/
def remove_name {α : Type} [DecidableEq α] (x : α) (l : List α) : List α :=
  l.filter (fun y => decide (y ≠ x))

/-- The key of the segment with identifier `id`, among the segments the
process has obtained with `shmget`. -/
def key_of (ids : List (Int × Int)) (id : Int) : Option Int :=
  match ids.find? (fun p => decide (p.1 = id)) with
  | some p => some p.2
  | none => none

/-- The names after the events of a process: `shm_open` with `O_CREAT` and
`shmget` with `IPC_CREAT` create the name when it is absent, `shm_unlink` and
`shmctl(IPC_RMID)` remove it; `ids` pairs the identifiers `shmget` has returned
with their keys. -/
def names_after_aux : List (Int × Int) → Names → List Event → Names
  | _, ns, [] => ns
  | ids, ns, Event.shm_open name creat _ fd :: es =>
      names_after_aux ids
        (if creat = true ∧ fd ≠ -1 then { ns with posix := add_name name ns.posix } else ns) es
  | ids, ns, Event.shm_unlink name rc :: es =>
      names_after_aux ids
        (if rc ≠ -1 then { ns with posix := remove_name name ns.posix } else ns) es
  | ids, ns, Event.shmget key _ _ creat id :: es =>
      if id ≠ -1 then
        names_after_aux ((id, key) :: ids)
          (if creat = true then { ns with sysv := add_name key ns.sysv } else ns) es
      else names_after_aux ids ns es
  | ids, ns, Event.shmctl_rmid id rc :: es =>
      names_after_aux ids
        (if rc ≠ -1 then
          match key_of ids id with
          | some key => { ns with sysv := remove_name key ns.sysv }
          | none => ns
         else ns) es
  | ids, ns, _ :: es => names_after_aux ids ns es

/-- The names after the events of a process that starts with the names `ns`. -/
def names_after (ns : Names) (es : List Event) : Names := names_after_aux [] ns es

/-- Whether the object of the mode is absent from the names: the name
`mem_key` for shm-open-rwx, the key `ftok` returns for the System V modes. -/
def object_absent (env : Env) (m : Mode) (ns : Names) : Bool :=
  match m with
  | Mode.shm_open_rwx => decide (mem_key ∉ ns.posix)
  | _ => decide (env.ftok_key ∉ ns.sysv)

/-- Whether every OS call of the run succeeds and neither the copy nor the
invocation faults. -/
def all_succeed (env : Env) : Bool :=
  decide (env.sigaction_rc ≠ -1) && decide (toInt32 env.sysconf_ret ≠ -1)
    && decide (env.malloc_ret ≠ 0)
    && decide (env.memalign_ret ≠ 0) && decide (env.mmap_ret ≠ MAP_FAILED)
    && decide (env.mprotect_rc ≠ -1) && decide (env.munmap_rc ≠ -1)
    && decide (env.shm_open_fd ≠ -1) && decide (env.ftruncate_rc ≠ -1)
    && decide (env.close_rc ≠ -1) && decide (env.shm_unlink_rc ≠ -1)
    && decide (env.ftok_key ≠ -1) && decide (env.shmget_id ≠ -1)
    && decide (env.shmat_ret ≠ MAP_FAILED) && decide (env.shmdt_rc ≠ -1)
    && decide (env.shmctl_rc ≠ -1) && decide (env.copy_fault = none)
    && decide (env.call_fault = none)

/-- An environment in which `sigaction` fails and all else is as in `env_ok`. -/
def env_sigaction_fails : Env := { env_ok with sigaction_rc := -1 }

/-- An environment in which `shmat` fails and all else is as in `env_ok`. -/
def env_shmat_fails : Env := { env_ok with shmat_ret := MAP_FAILED }

/-- An environment in which the invocation faults and all else is as in `env_ok`. -/
def env_call_faults : Env := { env_ok with call_fault := some 0x7ffc00001234 }

/-- Whether the event prints the usage line. -/
def Event.is_usage : Event → Bool
  | Event.printf fmt _ => decide (fmt = usage_fmt)
  | _ => false

/-- Whether the event is a removal of a named object that succeeded:
`shm_unlink` or `shmctl(IPC_RMID)` that did not return -1. -/
def Event.removes : Event → Bool
  | Event.shm_unlink _ rc => decide (rc ≠ -1)
  | Event.shmctl_rmid _ rc => decide (rc ≠ -1)
  | _ => false

/-- The last call of the probe of a shared-memory mode: the removal of its
named object. -/
def removal_event (env : Env) : Mode → Event
  | Mode.shm_open_rwx => Event.shm_unlink mem_key env.shm_unlink_rc
  | _ => Event.shmctl_rmid env.shmget_id env.shmctl_rc

/-! ## Lemmas: sequencing and primitives -/

theorem bind_apply {α β : Type} (x : Proc α) (f : α → Proc β) (w : World) :
    (x >>= f) w = (x w).bind f := rfl

theorem pure_apply {α : Type} (a : α) (w : World) : (pure a : Proc α) w = Step.ok a w := rfl

theorem Step.bind_ok {α β : Type} (a : α) (w : World) (f : α → World → Step β) :
    (Step.ok a w).bind f = f a w := rfl

theorem Step.bind_halt {α β : Type} (h : Halt) (w : World) (f : α → World → Step β) :
    (Step.halt h w : Step α).bind f = Step.halt h w := rfl

theorem ite_proc_apply {α : Type} (c : Prop) [Decidable c] (x y : Proc α) (w : World) :
    (if c then x else y) w = if c then x w else y w := by
  split <;> rfl

theorem emit_apply (e : Event) (w : World) :
    emit e w = Step.ok () { w with trace := w.trace ++ [e] } := rfl

theorem exit_apply {α : Type} (s : Int) (w : World) :
    (exit s : Proc α) w = Step.halt (Halt.exit s) w := rfl

theorem sigaction_apply (env : Env) (w : World) :
    sigaction env w = Step.ok env.sigaction_rc
      { w with trace := w.trace ++ [Event.sigaction env.sigaction_rc],
               handler := w.handler || (env.sigaction_rc != -1) } := rfl

theorem raise_sigsegv_apply {α : Type} (a : Nat) (w : World) :
    (raise_sigsegv a : Proc α) w =
      if w.handler then
        Step.halt (Halt.exit EXIT_FAILURE)
          { w with trace := w.trace ++ [Event.sigsegv a]
                     ++ [Event.printf sigsegv_fmt [Arg.int SIGSEGV, Arg.ulong a]] }
      else Step.halt (Halt.signal SIGSEGV) { w with trace := w.trace ++ [Event.sigsegv a] } := by
  unfold raise_sigsegv
  split <;> rfl

theorem length_readBytes (m : Nat → Nat) (a n : Nat) : (readBytes m a n).length = n := by
  simp [readBytes]

theorem readBytes_writeBytes (m : Nat → Nat) (a n : Nat) (bs : List Nat) (h : bs.length = n) :
    readBytes (writeBytes m a bs) a n = bs := by
  subst h
  apply List.ext_getElem
  · simp [readBytes]
  · intro i h1 h2
    simp [readBytes] at h1
    simp [readBytes, writeBytes, h1]

theorem readBytes_init (m : Nat → Nat) (a : Nat) :
    readBytes (writeBytes m a code) a sizeof_code = code :=
  readBytes_writeBytes m a sizeof_code code rfl

theorem readBytes_copy (m m1 : Nat → Nat) (d s : Nat) :
    readBytes (writeBytes m d (readBytes m1 s sizeof_code)) d sizeof_code
      = readBytes m1 s sizeof_code :=
  readBytes_writeBytes m d sizeof_code _ (length_readBytes m1 s sizeof_code)

theorem memcpy_apply (env : Env) (dst src n : Nat) (w : World) :
    memcpy env dst src n w
      = onFault env.copy_fault
          (fun a => (raise_sigsegv a : Proc Unit)
            { w with trace := w.trace ++ [Event.memcpy dst src n] })
          (Step.ok () { trace := w.trace ++ [Event.memcpy dst src n],
                        mem := writeBytes w.mem dst (readBytes w.mem src n),
                        handler := w.handler }) := by
  cases h : env.copy_fault <;> simp only [memcpy, bind_apply, emit_apply, Step.bind_ok, onFault, h]

/-! ## Lemmas: the instruction bytes -/

theorem add64_sub64_eight (sp : Nat) (h : sp < 2 ^ 64) : add64 (sub64 sp 8) 8 = sp := by
  unfold add64 sub64
  omega

theorem sub64_eight_ne (sp : Nat) (h : sp < 2 ^ 64) : sp ≠ sub64 sp 8 := by
  unfold sub64
  omega

theorem sub64_lt (a b : Nat) : sub64 a b < 2 ^ 64 := by
  unfold sub64
  omega

theorem x86_run_ret (fuel : Nat) (bytes rest : List Nat) (c : Cpu)
    (h : decode bytes = some (Instr.retq, rest)) :
    x86_run (fuel + 1) bytes c = some (c.rax, c.stack c.rsp) := by
  rw [x86_run, h]

theorem x86_run_step (fuel : Nat) (bytes rest : List Nat) (i : Instr) (c : Cpu)
    (h : decode bytes = some (i, rest)) (hi : i ≠ Instr.retq) :
    x86_run (fuel + 1) bytes c = x86_run fuel rest (exec_instr i c) := by
  rw [x86_run, h]
  cases i <;> first | rfl | exact absurd rfl hi

theorem decode_code_0 : decode code
    = some (Instr.push_rbp, [0x48, 0x89, 0xe5, 0xb8, 0x37, 0x00, 0x00, 0x00, 0xc9, 0xc3]) := by
  decide

theorem decode_code_1 : decode [0x48, 0x89, 0xe5, 0xb8, 0x37, 0x00, 0x00, 0x00, 0xc9, 0xc3]
    = some (Instr.mov_rsp_rbp, [0xb8, 0x37, 0x00, 0x00, 0x00, 0xc9, 0xc3]) := by
  decide

theorem decode_code_2 : decode [0xb8, 0x37, 0x00, 0x00, 0x00, 0xc9, 0xc3]
    = some (Instr.mov_imm_eax 55, [0xc9, 0xc3]) := by
  decide

theorem decode_code_3 : decode [0xc9, 0xc3] = some (Instr.leaveq, [0xc3]) := by
  decide

theorem decode_code_4 : decode [0xc3] = some (Instr.retq, []) := by
  decide

/-- Called with the return address on top of the stack, the bytes of `code`
return to that address with 55 in `rax`. -/
theorem x86_run_code (c : Cpu) (ra sp : Nat) (h : sp < 2 ^ 64) :
    x86_run sizeof_code code { c with rsp := sp, stack := c.store sp ra } = some (55, ra) := by
  have e : sizeof_code = 10 + 1 := rfl
  rw [e, x86_run_step _ _ _ _ _ decode_code_0 (by decide),
    x86_run_step _ _ _ _ _ decode_code_1 (by decide),
    x86_run_step _ _ _ _ _ decode_code_2 (by decide),
    x86_run_step _ _ _ _ _ decode_code_3 (by decide),
    x86_run_ret _ _ _ _ decode_code_4]
  simp only [exec_instr, Cpu.store, add64_sub64_eight sp h, if_neg (sub64_eight_ne sp h), if_true]

theorem toInt32_55 : toInt32 ((55 : Nat) : Int) = 55 := by
  unfold toInt32
  decide

theorem call_code_apply (env : Env) (addr : Nat) (w : World)
    (hm : readBytes w.mem addr sizeof_code = code) :
    call_code env addr w
      = onFault env.call_fault
          (fun a => (raise_sigsegv a : Proc Nat) { w with trace := w.trace ++ [Event.call addr] })
          (Step.ok 55 { w with trace := w.trace ++ [Event.call addr] }) := by
  cases h : env.call_fault <;>
    simp only [call_code, bind_apply, emit_apply, Step.bind_ok, onFault, h, hm,
      x86_run_code env.cpu env.ret_addr _ (sub64_lt env.cpu.rsp 8), if_true]

/-! ## Lemmas: case distinctions move outwards -/

theorem Step.bind_ite {α β : Type} (c : Prop) [Decidable c] (a b : Step α)
    (f : α → World → Step β) :
    (if c then a else b).bind f = if c then a.bind f else b.bind f := by
  split <;> rfl

theorem Step.outcome_ite (c : Prop) [Decidable c] (a b : Step Int) :
    (if c then a else b).outcome = if c then a.outcome else b.outcome := by
  split <;> rfl

theorem Step.bind_onFault {α β : Type} (o : Option Nat) (g : Nat → Step α) (k : Step α)
    (f : α → World → Step β) :
    (onFault o g k).bind f = onFault o (fun a => (g a).bind f) (k.bind f) := by
  cases o <;> rfl

theorem Step.outcome_onFault (o : Option Nat) (g : Nat → Step Int) (k : Step Int) :
    (onFault o g k).outcome = onFault o (fun a => (g a).outcome) k.outcome := by
  cases o <;> rfl

theorem after_ite (c : Prop) [Decidable c] (es : List Event) (a b : List Event × Halt) :
    after es (if c then a else b) = if c then after es a else after es b := by
  split <;> rfl

theorem after_ite_left (c : Prop) [Decidable c] (es1 es2 : List Event) (r : List Event × Halt) :
    after (if c then es1 else es2) r = if c then after es1 r else after es2 r := by
  split <;> rfl

theorem after_onFault (o : Option Nat) (es : List Event) (g : Nat → List Event × Halt)
    (k : List Event × Halt) :
    after es (onFault o g k) = onFault o (fun a => after es (g a)) (after es k) := by
  cases o <;> rfl

theorem after_pair (es es1 : List Event) (h : Halt) : after es (es1, h) = (es ++ es1, h) := rfl

theorem Step.outcome_ok (rc : Int) (w : World) :
    (Step.ok rc w).outcome = (w.trace, Halt.exit rc) := rfl

theorem Step.outcome_halt (h : Halt) (w : World) :
    (Step.halt h w : Step Int).outcome = (w.trace, h) := rfl

theorem handler_registered (env : Env) :
    ((World.registered env).handler = true) = ¬ (env.sigaction_rc = -1) := by
  simp [World.registered]

theorem mem_registered (env : Env) :
    (World.registered env).mem = writeBytes env.mem0 env.code_addr code := rfl

/-! ## Lemmas: the runs in closed form -/

theorem main_mode (env : Env) (m : Mode) (prog : String) (rest : List String) :
    main env (prog :: m.name :: rest) = mode_main env m := by
  cases m <;> rfl

theorem outcome_mode_main_registered (env : Env) (m : Mode) :
    (mode_main env m (World.init env)).outcome
      = ((m.probe env (World.registered env)).bind (fun _ => (pure 0 : Proc Int))).outcome := by
  by_cases hs : env.sigaction_rc = -1 <;>
    simp only [mode_main, bind_apply, pure_apply, ite_proc_apply, emit_apply, sigaction_apply,
      perror, Step.bind_ok, World.init, World.registered, hs, if_true, if_false, List.nil_append,
      List.cons_append, Bool.false_or]

/-- The process of a mode in closed form: the events of `sigaction`, then those
of the probe. -/
theorem outcome_mode_main (env : Env) (m : Mode) :
    (mode_main env m (World.init env)).outcome = after (sig_events env) (expected env m) := by
  rw [outcome_mode_main_registered]
  cases m <;>
    simp only [Mode.probe, expected, shmget_expected, execute_from_data_segment,
      execute_from_bss_segment, execute_from_stack, execute_from_stack_exec,
      execute_from_malloc_rw, execute_from_malloc_rw_x, execute_from_mmap_write,
      execute_from_mmap_rwx, execute_from_mmap_rw_x, execute_from_shm_open_exec,
      execute_from_shmget_rw, execute_from_shmget_rwx, execute_from_shmget_rw_x,
      EXECUTE_FUNC, handle_error, sysconf, malloc, memalign, mmap, mprotect, munmap, shm_open,
      ftruncate, close, shm_unlink, ftok, shmget, shmat, shmdt, shmctl_rmid, printf, perror,
      bind_apply, pure_apply, ite_proc_apply, emit_apply, exit_apply, Step.bind_ok,
      Step.bind_halt, memcpy_apply, call_code_apply, readBytes_copy, readBytes_init,
      raise_sigsegv_apply, handler_registered, mem_registered, Step.bind_ite, Step.bind_onFault,
      Step.outcome_ite, Step.outcome_onFault, Step.outcome_ok, Step.outcome_halt,
      after_ite, after_onFault, after_pair, copy_then, exec_then, segv_end, fail_end, return_end,
      sig_events, toInt32_55, EXIT_FAILURE, ite_not, List.nil_append, List.cons_append,
      List.append_assoc, List.append_nil]
theorem char_eq_of_toNat_eq (a b : Char) (h : a.toNat = b.toNat) : a = b := by
  rw [← Char.ofNat_toNat a, ← Char.ofNat_toNat b, h]

theorem strcmpAux_eq_zero (a : List Char) :
    ∀ b : List Char, Char.ofNat 0 ∉ a → Char.ofNat 0 ∉ b → (strcmpAux a b = 0 ↔ a = b) := by
  induction a with
  | nil =>
    intro b _ hb
    cases b with
    | nil => simp [strcmpAux]
    | cons c cs =>
      have hc : c ≠ Char.ofNat 0 := fun h => hb (h ▸ List.mem_cons_self _ _)
      have : c.toNat ≠ 0 := fun h => hc (char_eq_of_toNat_eq _ _ h)
      simp only [strcmpAux]
      constructor
      · intro h
        omega
      · intro h
        cases h
  | cons x xs ih =>
    intro b ha hb
    cases b with
    | nil =>
      have hc : x ≠ Char.ofNat 0 := fun h => ha (h ▸ List.mem_cons_self _ _)
      have : x.toNat ≠ 0 := fun h => hc (char_eq_of_toNat_eq _ _ h)
      simp only [strcmpAux]
      constructor
      · intro h
        omega
      · intro h
        cases h
    | cons c cs =>
      simp only [strcmpAux]
      by_cases hxc : x = c
      · subst hxc
        rw [if_pos rfl, ih cs (fun h => ha (List.mem_cons_of_mem _ h))
          (fun h => hb (List.mem_cons_of_mem _ h))]
        simp
      · rw [if_neg hxc]
        have : x.toNat ≠ c.toNat := fun h => hxc (char_eq_of_toNat_eq _ _ h)
        constructor
        · intro h
          omega
        · intro h
          exact absurd (List.cons.inj h).1 hxc

/-- On strings without a NUL character `strcmp` is 0 exactly for equal strings. -/
theorem strcmp_eq_zero (a b : String) (ha : Char.ofNat 0 ∉ a.toList) (hb : Char.ofNat 0 ∉ b.toList) :
    strcmp a b = 0 ↔ a = b := by
  unfold strcmp
  rw [strcmpAux_eq_zero _ _ ha hb]
  constructor
  · intro h
    exact String.ext h
  · intro h
    rw [h]

/-- The process that prints the usage line, in closed form. -/
theorem outcome_usage_main (env : Env) (argv : List String) :
    (usage_main env argv (World.init env)).outcome = after (sig_events env) (usage_end argv) := by
  by_cases hs : env.sigaction_rc = -1 <;>
    simp only [usage_main, help, printf, bind_apply, pure_apply, ite_proc_apply, emit_apply,
      exit_apply, sigaction_apply, perror, Step.bind_ok, Step.bind_halt, Step.outcome_halt,
      World.init, World.registered, sig_events, usage_end, after_pair, hs, if_true, if_false,
      List.nil_append, List.cons_append]

/-- The run of a mode in closed form. -/
theorem run_mode (env : Env) (m : Mode) (prog : String) (rest : List String) :
    run env (prog :: m.name :: rest) = after (sig_events env) (expected env m) := by
  unfold run
  rw [main_mode, outcome_mode_main]

/-- With fewer than two arguments `main` prints the usage line. -/
theorem main_short (env : Env) (argv : List String) (h : argv.length < 2) (w : World) :
    main env argv w = usage_main env argv w := by
  by_cases hs : env.sigaction_rc = -1 <;>
    simp only [main, usage_main, help, printf, bind_apply, pure_apply, ite_proc_apply,
      emit_apply, exit_apply, sigaction_apply, perror, Step.bind_ok, Step.bind_halt, h, hs,
      if_true, if_false]

/-- Every run of `main` is the usage process or the process of one mode. -/
theorem main_cases (env : Env) (argv : List String) :
    ((argv.length < 2 ∨ ∀ n ∈ mode_names, strcmp n (argv.getD 1 "") ≠ 0)
        ∧ ∀ w, main env argv w = usage_main env argv w)
      ∨ ∃ m : Mode, ¬ argv.length < 2 ∧ strcmp m.name (argv.getD 1 "") = 0
          ∧ main env argv = mode_main env m := by
  by_cases hl : argv.length < 2
  · exact Or.inl ⟨Or.inl hl, main_short env argv hl⟩
  by_cases h1 : strcmp "data" (argv.getD 1 "") = 0
  · refine Or.inr ⟨Mode.data, hl, h1, ?_⟩
    simp only [main, hl, h1, if_true, if_false]
    rfl
  by_cases h2 : strcmp "bss" (argv.getD 1 "") = 0
  · refine Or.inr ⟨Mode.bss, hl, h2, ?_⟩
    simp only [main, hl, h1, h2, if_true, if_false]
    rfl
  by_cases h3 : strcmp "stack" (argv.getD 1 "") = 0
  · refine Or.inr ⟨Mode.stack, hl, h3, ?_⟩
    simp only [main, hl, h1, h2, h3, if_true, if_false]
    rfl
  by_cases h4 : strcmp "stack-exec" (argv.getD 1 "") = 0
  · refine Or.inr ⟨Mode.stack_exec, hl, h4, ?_⟩
    simp only [main, hl, h1, h2, h3, h4, if_true, if_false]
    rfl
  by_cases h5 : strcmp "malloc-rw" (argv.getD 1 "") = 0
  · refine Or.inr ⟨Mode.malloc_rw, hl, h5, ?_⟩
    simp only [main, hl, h1, h2, h3, h4, h5, if_true, if_false]
    rfl
  by_cases h6 : strcmp "malloc-rw-x" (argv.getD 1 "") = 0
  · refine Or.inr ⟨Mode.malloc_rw_x, hl, h6, ?_⟩
    simp only [main, hl, h1, h2, h3, h4, h5, h6, if_true, if_false]
    rfl
  by_cases h7 : strcmp "mmap-rw" (argv.getD 1 "") = 0
  · refine Or.inr ⟨Mode.mmap_rw, hl, h7, ?_⟩
    simp only [main, hl, h1, h2, h3, h4, h5, h6, h7, if_true, if_false]
    rfl
  by_cases h8 : strcmp "mmap-rwx" (argv.getD 1 "") = 0
  · refine Or.inr ⟨Mode.mmap_rwx, hl, h8, ?_⟩
    simp only [main, hl, h1, h2, h3, h4, h5, h6, h7, h8, if_true, if_false]
    rfl
  by_cases h9 : strcmp "mmap-rw-x" (argv.getD 1 "") = 0
  · refine Or.inr ⟨Mode.mmap_rw_x, hl, h9, ?_⟩
    simp only [main, hl, h1, h2, h3, h4, h5, h6, h7, h8, h9, if_true, if_false]
    rfl
  by_cases h10 : strcmp "shm-open-rwx" (argv.getD 1 "") = 0
  · refine Or.inr ⟨Mode.shm_open_rwx, hl, h10, ?_⟩
    simp only [main, hl, h1, h2, h3, h4, h5, h6, h7, h8, h9, h10, if_true, if_false]
    rfl
  by_cases h11 : strcmp "shmget-rw" (argv.getD 1 "") = 0
  · refine Or.inr ⟨Mode.shmget_rw, hl, h11, ?_⟩
    simp only [main, hl, h1, h2, h3, h4, h5, h6, h7, h8, h9, h10, h11, if_true, if_false]
    rfl
  by_cases h12 : strcmp "shmget-rwx" (argv.getD 1 "") = 0
  · refine Or.inr ⟨Mode.shmget_rwx, hl, h12, ?_⟩
    simp only [main, hl, h1, h2, h3, h4, h5, h6, h7, h8, h9, h10, h11, h12, if_true, if_false]
    rfl
  by_cases h13 : strcmp "shmget-rw-x" (argv.getD 1 "") = 0
  · refine Or.inr ⟨Mode.shmget_rw_x, hl, h13, ?_⟩
    simp only [main, hl, h1, h2, h3, h4, h5, h6, h7, h8, h9, h10, h11, h12, h13, if_true, if_false]
    rfl
  refine Or.inl ⟨Or.inr ?_, fun w => ?_⟩
  · intro n hn
    simp only [mode_names, List.mem_cons, List.mem_singleton, List.not_mem_nil, or_false] at hn
    rcases hn with rfl | rfl | rfl | rfl | rfl | rfl | rfl | rfl | rfl | rfl | rfl | rfl | rfl <;> assumption
  · by_cases hs : env.sigaction_rc = -1 <;>
      simp only [main, usage_main, help, printf, bind_apply, pure_apply, ite_proc_apply,
        emit_apply, exit_apply, sigaction_apply, perror, Step.bind_ok, Step.bind_halt, hl, hs,
        h1, h2, h3, h4, h5, h6, h7, h8, h9, h10, h11, h12, h13, if_true, if_false]

/-- Every run is the usage run or the run of one mode, in closed form. -/
theorem run_cases (env : Env) (argv : List String) :
    ((argv.length < 2 ∨ ∀ n ∈ mode_names, strcmp n (argv.getD 1 "") ≠ 0)
        ∧ run env argv = after (sig_events env) (usage_end argv))
      ∨ ∃ m : Mode, ¬ argv.length < 2 ∧ strcmp m.name (argv.getD 1 "") = 0
          ∧ run env argv = after (sig_events env) (expected env m) := by
  rcases main_cases env argv with ⟨h, hu⟩ | ⟨m, hl, hm, hmain⟩
  · refine Or.inl ⟨h, ?_⟩
    unfold run
    rw [hu, outcome_usage_main]
  · refine Or.inr ⟨m, hl, hm, ?_⟩
    unfold run
    rw [hmain, outcome_mode_main]
/-! ## Lemmas: what the trace properties say -/

theorem ends_after_spec (f : Event → Option (List Event × Halt)) (h : Halt) :
    ∀ (pre tr : List Event), ends_after f h tr = true →
      ∀ (e : Event) (post rep : List Event) (h1 : Halt), tr = pre ++ e :: post →
        f e = some (rep, h1) → post = rep ∧ h = h1 := by
  intro pre
  induction pre with
  | nil =>
    intro tr ht e post rep h1 htr hf
    subst htr
    simp only [List.nil_append, ends_after, hf, Bool.and_eq_true, decide_eq_true_eq] at ht
    exact ht.1
  | cons p ps ih =>
    intro tr ht e post rep h1 htr hf
    subst htr
    simp only [List.cons_append, ends_after, Bool.and_eq_true] at ht
    exact ih _ ht.2 e post rep h1 rfl hf
theorem calls_guarded_spec (ok : Nat → Event → Bool) :
    ∀ (pre seen tr : List Event), calls_guarded ok seen tr = true →
      ∀ (a : Nat) (post : List Event), tr = pre ++ Event.call a :: post →
        ∃ e ∈ seen ++ pre, ok a e = true := by
  intro pre
  induction pre with
  | nil =>
    intro seen tr ht a post htr
    subst htr
    simp only [List.nil_append, calls_guarded, Bool.and_eq_true, List.any_eq_true] at ht
    simpa using ht.1
  | cons p ps ih =>
    intro seen tr ht a post htr
    subst htr
    simp only [List.cons_append, calls_guarded, Bool.and_eq_true] at ht
    obtain ⟨e, he, hok⟩ := ih _ _ ht.2 a post rfl
    exact ⟨e, by simpa using he, hok⟩
theorem calls_framed_spec (before next : Event) :
    ∀ (pre : List Event) (prev : Option Event) (tr : List Event),
      calls_framed before next prev tr = true →
      ∀ (a : Nat) (post : List Event), tr = pre ++ Event.call a :: post →
        (∀ b, post.head? ≠ some (Event.sigsegv b)) →
        (pre.getLast?.or prev) = some before ∧ post.head? = some next := by
  intro pre
  induction pre with
  | nil =>
    intro prev tr ht a post htr hns
    subst htr
    cases post with
    | nil => simp [calls_framed] at ht
    | cons e1 es =>
      simp only [List.nil_append, calls_framed, Bool.and_eq_true, Bool.or_eq_true,
        decide_eq_true_eq] at ht
      rcases ht.1 with hs | ⟨hp, hn⟩
      · cases e1 <;> simp [Event.is_sigsegv] at hs
        exact absurd rfl (hns _)
      · simp [hp, hn]
  | cons p ps ih =>
    intro prev tr ht a post htr hns
    subst htr
    simp only [List.cons_append, calls_framed, Bool.and_eq_true] at ht
    have := ih (some p) _ ht.2 a post rfl hns
    refine ⟨?_, this.2⟩
    have h1 := this.1
    cases ps with
    | nil => simpa using h1
    | cons q qs =>
      rw [List.getLast?_cons_cons]
      cases hq : (q :: qs).getLast? with
      | none => simp at hq
      | some x => simpa [hq] using h1
theorem released_after_call_spec (rel : Nat → Event → Bool) :
    ∀ tr : List Event, released_after_call rel tr = true →
      ∃ (pre : List Event) (a : Nat) (mid : List Event) (e : Event) (post : List Event),
        tr = pre ++ Event.call a :: (mid ++ e :: post) ∧ rel a e = true := by
  intro tr
  induction tr with
  | nil => intro h; simp [released_after_call] at h
  | cons x xs ih =>
    intro h
    simp only [released_after_call, Bool.or_eq_true] at h
    rcases h with h | h
    · cases x <;> simp only [List.any_eq_true, Bool.false_eq_true] at h
      rename_i a
      obtain ⟨e, he, hr⟩ := h
      obtain ⟨mid, post, hsplit⟩ := List.append_of_mem he
      exact ⟨[], a, mid, e, post, by rw [hsplit]; rfl, hr⟩
    · obtain ⟨pre, a, mid, e, post, ht, hr⟩ := ih h
      exact ⟨x :: pre, a, mid, e, post, by rw [ht]; rfl, hr⟩

/-! ## Lemmas: names of modes, rendered text -/

theorem mode_name_nul_free (m : Mode) : Char.ofNat 0 ∉ m.name.toList := by
  cases m <;> decide

theorem mode_name_mem (m : Mode) : m.name ∈ mode_names := by
  cases m <;> decide

theorem render_success (m : Mode) :
    render ("Executing machine code from '" ++ m.label ++ "': ") []
        ++ render success_fmt [Arg.int 55]
      = "Executing machine code from '" ++ m.label ++ "': Executed successfully (55).\n" := by
  cases m <;> decide

theorem toInt32_neg_one : toInt32 (-1) = -1 := by
  unfold toInt32
  decide

theorem neg_one_eq (x : Int) : (-1 = x) = (x = -1) := propext eq_comm

theorem ne_neg_one_of_toInt32 (x : Int) (h : ¬ toInt32 x = -1) : (x = -1) = False := by
  apply eq_false
  intro e
  exact h (e ▸ toInt32_neg_one)

/-! ## Lemmas: properties of the closed forms -/

theorem usage_not_printed (env : Env) (m : Mode) :
    (after (sig_events env) (expected env m)).1.all (fun e => !e.is_usage) = true := by
  cases m <;> by_cases hs : env.sigaction_rc = -1 <;>
    simp only [expected, shmget_expected, copy_then, exec_then, fail_end, return_end, segv_end,
      usage_end, after_ite, after_ite_left, after_onFault, after_pair, sig_events,
      World.registered, onFault, List.cons_append, List.nil_append, neg_one_eq, hs, if_true,
      if_false] <;>
    (repeat' split) <;>
    rfl

theorem ends_after_checked (env : Env) (m : Mode) :
    ends_after (checked_failure m) (after (sig_events env) (expected env m)).2
      (after (sig_events env) (expected env m)).1 = true := by
  cases m <;> by_cases hs : env.sigaction_rc = -1 <;>
    simp only [expected, shmget_expected, copy_then, exec_then, fail_end, return_end, segv_end,
      usage_end, after_ite, after_ite_left, after_onFault, after_pair, sig_events,
      World.registered, onFault, List.cons_append, List.nil_append, neg_one_eq, hs, if_true,
      if_false] <;>
    (repeat' split) <;>
    first
      | rfl
      | (simp [after, ends_after, checked_failure, ne_neg_one_of_toInt32, *]; done)
      | (simp [after, ends_after, checked_failure, ne_neg_one_of_toInt32, *]
         by_cases h0 : env.sysconf_ret = -1 <;> simp [h0])

theorem ends_after_handled (env : Env) (m : Mode) (h : env.sigaction_rc ≠ -1) :
    ends_after handled_sigsegv (after (sig_events env) (expected env m)).2
      (after (sig_events env) (expected env m)).1 = true := by
  cases m <;> by_cases hs : env.sigaction_rc = -1 <;>
    simp only [expected, shmget_expected, copy_then, exec_then, fail_end, return_end, segv_end,
      usage_end, after_ite, after_ite_left, after_onFault, after_pair, sig_events,
      World.registered, onFault, List.cons_append, List.nil_append, neg_one_eq, hs, if_true,
      if_false] <;>
    (repeat' split) <;>
    first
      | exact absurd hs h
      | rfl
      | simp [after, ends_after, handled_sigsegv]

theorem ends_after_handled_usage (env : Env) (argv : List String) :
    ends_after handled_sigsegv (after (sig_events env) (usage_end argv)).2
      (after (sig_events env) (usage_end argv)).1 = true := by
  by_cases hs : env.sigaction_rc = -1 <;>
    simp [after, ends_after, handled_sigsegv, sig_events, World.registered, usage_end, hs]

theorem calls_framed_expected (env : Env) (m : Mode) :
    calls_framed (Event.printf ("Executing machine code from '" ++ m.label ++ "': ") [])
      (Event.printf success_fmt [Arg.int 55]) none
      (after (sig_events env) (expected env m)).1 = true := by
  cases m <;> by_cases hs : env.sigaction_rc = -1 <;>
    simp only [expected, shmget_expected, copy_then, exec_then, fail_end, return_end, segv_end,
      usage_end, after_ite, after_ite_left, after_onFault, after_pair, sig_events,
      World.registered, onFault, List.cons_append, List.nil_append, neg_one_eq, hs, if_true,
      if_false] <;>
    (repeat' split) <;>
    rfl

theorem calls_guarded_expected (env : Env) (m : Mode) (hm : m.reprotects = true) :
    calls_guarded (exec_request env m) [] (after (sig_events env) (expected env m)).1 = true := by
  cases m <;> simp only [Mode.reprotects, Bool.false_eq_true] at hm <;>
    by_cases hs : env.sigaction_rc = -1 <;>
    simp only [expected, shmget_expected, copy_then, exec_then, fail_end, return_end, segv_end,
      usage_end, after_ite, after_ite_left, after_onFault, after_pair, sig_events,
      World.registered, onFault, List.cons_append, List.nil_append, neg_one_eq, hs, if_true,
      if_false] <;>
    (repeat' split) <;>
    first
      | rfl
      | simp [after, calls_guarded, exec_request, PROT_RWX]

theorem no_mprotect_expected (env : Env) (m : Mode) (hm : m.reprotects = false) :
    (after (sig_events env) (expected env m)).1.all (fun e => !e.is_mprotect) = true := by
  cases m <;> simp only [Mode.reprotects, Bool.true_eq_false] at hm <;>
    by_cases hs : env.sigaction_rc = -1 <;>
    simp only [expected, shmget_expected, copy_then, exec_then, fail_end, return_end, segv_end,
      usage_end, after_ite, after_ite_left, after_onFault, after_pair, sig_events,
      World.registered, onFault, List.cons_append, List.nil_append, neg_one_eq, hs, if_true,
      if_false] <;>
    (repeat' split) <;>
    rfl

theorem no_release_expected (env : Env) (m : Mode) (hm : m.shared = false) :
    (after (sig_events env) (expected env m)).1.all (fun e => !e.is_release) = true := by
  cases m <;> simp only [Mode.shared, Bool.true_eq_false] at hm <;>
    by_cases hs : env.sigaction_rc = -1 <;>
    simp only [expected, shmget_expected, copy_then, exec_then, fail_end, return_end, segv_end,
      usage_end, after_ite, after_ite_left, after_onFault, after_pair, sig_events,
      World.registered, onFault, List.cons_append, List.nil_append, neg_one_eq, hs, if_true,
      if_false] <;>
    (repeat' split) <;>
    rfl

theorem released_expected (env : Env) (m : Mode) (hm : m.shared = true) :
    (after (sig_events env) (expected env m)).2 = Halt.exit 0 →
      released_after_call releases (after (sig_events env) (expected env m)).1 = true := by
  cases m <;> simp only [Mode.shared, Bool.false_eq_true] at hm <;>
    by_cases hs : env.sigaction_rc = -1 <;>
    simp only [expected, shmget_expected, copy_then, exec_then, fail_end, return_end, segv_end,
      usage_end, after_ite, after_ite_left, after_onFault, after_pair, sig_events,
      World.registered, onFault, List.cons_append, List.nil_append, neg_one_eq, hs, if_true,
      if_false] <;>
    (repeat' split) <;>
    simp [after, released_after_call, releases, SIGSEGV, EXIT_FAILURE]

/-! ## Lemmas: named objects -/

theorem onFault_none {β : Type} (f : Nat → β) (k : β) : onFault none f k = k := rfl

theorem mem_remove_name {α : Type} [DecidableEq α] (x k : α) (l : List α)
    (h : x ∈ remove_name k l) : x ∈ l := by
  unfold remove_name at h
  exact (List.mem_filter.mp h).1

theorem mem_add_name {α : Type} [DecidableEq α] (x k : α) (l : List α)
    (h : x ∈ add_name k l) : x = k ∨ x ∈ l := by
  unfold add_name at h
  split at h
  · exact Or.inr h
  · simpa using h

theorem mem_remove_add {α : Type} [DecidableEq α] (x k : α) (l : List α)
    (h : x ∈ remove_name k (add_name k l)) : x ∈ l := by
  unfold remove_name at h
  have h1 := List.mem_filter.mp h
  rcases mem_add_name x k l h1.1 with e | e
  · simp [e] at h1
  · exact e

theorem remove_add_absent {α : Type} [DecidableEq α] (k : α) (l : List α) (h : k ∉ l) :
    remove_name k (add_name k l) = l := by
  unfold remove_name add_name
  rw [if_neg h, List.filter_cons]
  simp only [ne_eq, not_true_eq_false, decide_False, Bool.false_eq_true, if_false]
  rw [List.filter_eq_self]
  intro a ha
  simp only [decide_eq_true_eq]
  intro e
  exact h (e ▸ ha)

theorem all_succeed_spec (env : Env) (h : all_succeed env = true) :
    env.sigaction_rc ≠ -1 ∧ env.mprotect_rc ≠ -1 ∧ env.shm_open_fd ≠ -1
      ∧ env.shm_unlink_rc ≠ -1 ∧ env.ftok_key ≠ -1 ∧ env.shmget_id ≠ -1
      ∧ env.shmat_ret ≠ MAP_FAILED ∧ env.shmdt_rc ≠ -1 ∧ env.shmctl_rc ≠ -1
      ∧ env.copy_fault = none ∧ env.call_fault = none := by
  simp only [all_succeed, Bool.and_eq_true, decide_eq_true_eq] at h
  tauto

theorem names_success (env : Env) (m : Mode) (ns : Names) (hm : m.shared = true)
    (hs : all_succeed env = true) (ha : object_absent env m ns = true) :
    (after (sig_events env) (expected env m)).2 = Halt.exit 0
      ∧ names_after ns (after (sig_events env) (expected env m)).1 = ns
      ∧ (after (sig_events env) (expected env m)).1.getLast? = some (removal_event env m) := by
  obtain ⟨h1, h2, h3, h4, h5, h6, h7, h8, h9, h10, h11⟩ := all_succeed_spec env hs
  cases m <;> simp only [Mode.shared, Bool.false_eq_true] at hm <;>
    simp only [object_absent, decide_eq_true_eq] at ha <;>
    simp only [expected, shmget_expected, copy_then, exec_then, fail_end, return_end,
      after_pair, sig_events, World.registered, onFault_none, List.cons_append, List.nil_append,
      neg_one_eq, h1, h3, h5, h6, h7, h8, h9, h10, h11, if_false] <;>
    simp [after, names_after, names_after_aux, key_of, remove_add_absent, removal_event, *]

theorem names_subset (env : Env) (m : Mode) (ns : Names) (hm : m.shared = true)
    (hu : m = Mode.shm_open_rwx → env.shm_unlink_rc ≠ -1) :
    (after (sig_events env) (expected env m)).2 = Halt.exit 0 →
      (∀ x ∈ (names_after ns (after (sig_events env) (expected env m)).1).posix, x ∈ ns.posix)
      ∧ (∀ k ∈ (names_after ns (after (sig_events env) (expected env m)).1).sysv, k ∈ ns.sysv) := by
  cases m <;> simp only [Mode.shared, Bool.false_eq_true] at hm <;>
    simp only [forall_const, reduceCtorEq, false_implies] at hu <;>
    by_cases hs : env.sigaction_rc = -1 <;>
    simp only [expected, shmget_expected, copy_then, exec_then, fail_end, return_end, segv_end,
      usage_end, after_ite, after_ite_left, after_onFault, after_pair, sig_events,
      World.registered, onFault, List.cons_append, List.nil_append, neg_one_eq, hs, if_true,
      if_false] <;>
    (repeat' split) <;>
    intro hh <;>
    first
      | (exfalso; simp [after, SIGSEGV, EXIT_FAILURE] at hh; done)
      | (simp only [after, names_after, names_after_aux, key_of, List.find?, List.cons_append,
           List.nil_append, decide_True, ne_eq, not_false_eq_true, if_true, true_and, and_true, *]
         exact ⟨fun x hx => by first | exact hx | exact mem_remove_add _ _ _ hx,
           fun x hx => by first | exact hx | exact mem_remove_add _ _ _ hx⟩)

theorem no_removal_on_failure (env : Env) (m : Mode) (hm : m.shared = true) :
    (after (sig_events env) (expected env m)).2 ≠ Halt.exit 0 →
      (after (sig_events env) (expected env m)).1.all (fun e => !e.removes) = true := by
  cases m <;> simp only [Mode.shared, Bool.false_eq_true] at hm <;>
    by_cases hs : env.sigaction_rc = -1 <;>
    simp only [expected, shmget_expected, copy_then, exec_then, fail_end, return_end, segv_end,
      usage_end, after_ite, after_ite_left, after_onFault, after_pair, sig_events,
      World.registered, onFault, List.cons_append, List.nil_append, neg_one_eq, hs, if_true,
      if_false] <;>
    (repeat' split) <;>
    first
      | (intro hh; exact absurd rfl hh)
      | (intro _; rfl)
      | simp [after, Event.removes, *]

/-! ## Lemmas: the page mask -/

theorem and_mask (x k : Nat) (hx : x < 2 ^ 64) (hk : k < 64) :
    x &&& (2 ^ 64 - 2 ^ k) = 2 ^ k * (x / 2 ^ k) := by
  have hp : 0 < 2 ^ k := Nat.two_pow_pos k
  have hlt : 2 ^ k < 2 ^ 64 := Nat.pow_lt_pow_right (by norm_num) hk
  apply Nat.eq_of_testBit_eq
  intro i
  have hM : 2 ^ 64 - 2 ^ k = 2 ^ 64 - ((2 ^ k - 1) + 1) := by omega
  rw [Nat.testBit_and, hM, Nat.testBit_two_pow_sub_succ (by omega), Nat.testBit_two_pow_sub_one,
    Nat.testBit_mul_pow_two, ← Nat.shiftRight_eq_div_pow, Nat.testBit_shiftRight]
  by_cases hik : k ≤ i
  · have e : k + (i - k) = i := by omega
    rw [e]
    by_cases hi : i < 64
    · simp [hik, hi, Nat.not_lt.mpr hik]
    · have hb : x.testBit i = false :=
        Nat.testBit_lt_two_pow
          (lt_of_lt_of_le hx (Nat.pow_le_pow_right (by norm_num) (Nat.le_of_not_lt hi)))
      simp [hb]
  · simp [hik, Nat.lt_of_not_le hik]

/-! ## The claims -/

/-- C1. For every argument vector, when no mode argument is given (`argc < 2`)
or `argv[1]` is none of the thirteen mode names, `main` prints the usage line
after the events of `sigaction`, runs no probe (there is no other event) and
exits with status 1. The strings of `argv` are C strings: they hold no NUL. -/
theorem main_prints_usage_and_fails (env : Env) (argv : List String)
    (hnul : Char.ofNat 0 ∉ (argv.getD 1 "").toList)
    (h : argv.length < 2 ∨ argv.getD 1 "" ∉ mode_names) :
    run env argv =
      ((if env.sigaction_rc = -1
          then [Event.sigaction env.sigaction_rc, Event.perror "sigaction"]
          else [Event.sigaction env.sigaction_rc])
        ++ [Event.printf usage_fmt [Arg.str argv.head?]], Halt.exit 1) := by
  rcases run_cases env argv with ⟨_, hu⟩ | ⟨m, hl, hm, _⟩
  · rw [hu]
    rfl
  · exfalso
    rcases h with h | h
    · exact hl h
    · rw [strcmp_eq_zero _ _ (mode_name_nul_free m) hnul] at hm
      exact h (hm ▸ mode_name_mem m)

/-- C1 at a concrete input: the unknown mode `heap`. -/
theorem main_prints_usage_and_fails_witness :
    Char.ofNat 0 ∉ (["mem-test-exec", "heap"].getD 1 "").toList
      ∧ (["mem-test-exec", "heap"].length < 2 ∨ ["mem-test-exec", "heap"].getD 1 "" ∉ mode_names)
      ∧ run env_ok ["mem-test-exec", "heap"] =
          ((if env_ok.sigaction_rc = -1
              then [Event.sigaction env_ok.sigaction_rc, Event.perror "sigaction"]
              else [Event.sigaction env_ok.sigaction_rc])
            ++ [Event.printf usage_fmt [Arg.str ["mem-test-exec", "heap"].head?]], Halt.exit 1) :=
  ⟨by decide, Or.inr (by decide),
    main_prints_usage_and_fails env_ok ["mem-test-exec", "heap"] (by decide) (Or.inr (by decide))⟩

/-- C2. For each of the thirteen modes, `main` called with `argv[1]` equal to
the name of the mode (whatever the further arguments) is: the registration of
the handler, the probe of that mode (`Mode.probe`), `return 0`. So when the
probe returns, the process ends with exit status 0, and no run of a mode
prints the usage line. -/
theorem main_runs_the_selected_probe (env : Env) (m : Mode) (prog : String)
    (rest : List String) :
    main env (prog :: m.name :: rest) = (do
        if (← sigaction env) = -1 then
          perror "sigaction"
        m.probe env
        return 0)
      ∧ (∀ w1 : World,
          ((do
            if (← sigaction env) = -1 then
              perror "sigaction"
            m.probe env) : Proc Unit) (World.init env) = Step.ok () w1 →
          run env (prog :: m.name :: rest) = (w1.trace, Halt.exit 0))
      ∧ (∀ args : List Arg,
          Event.printf usage_fmt args ∉ (run env (prog :: m.name :: rest)).1) := by
  refine ⟨main_mode env m prog rest, ?_, ?_⟩
  · intro w1 h
    unfold run
    rw [main_mode]
    by_cases hs : env.sigaction_rc = -1 <;>
      simp only [mode_main, bind_apply, pure_apply, ite_proc_apply, emit_apply, sigaction_apply,
        perror, Step.bind_ok, hs, if_true, if_false] at h ⊢ <;>
      rw [h] <;> rfl
  · intro args hmem
    rw [run_mode] at hmem
    have h := List.all_eq_true.mp (usage_not_printed env m) _ hmem
    simp [Event.is_usage] at h

/-- C3, counterexample. In the run of mode `data` in which `sigaction` returns
-1, the failure is reported with `perror` and the process goes on: the probe
invokes the code and the exit status is 0, not 1. -/
theorem sigaction_failure_is_not_fatal :
    env_sigaction_fails.sigaction_rc = -1
      ∧ run env_sigaction_fails ["mem-test-exec", "data"] =
        ([Event.sigaction (-1), Event.perror "sigaction",
          Event.printf "Executing machine code from 'data segment': " [],
          Event.call 0x404000,
          Event.printf success_fmt [Arg.int 55]], Halt.exit 0) := by
  refine ⟨rfl, ?_⟩
  rw [show ["mem-test-exec", "data"] = "mem-test-exec" :: Mode.data.name :: [] from rfl, run_mode]
  decide

/-- C3, amended. In every run of a mode, a call whose result the probe tests
(`checked_failure`: `sysconf` and `memalign` in malloc-rw-x, `mprotect` in
stack-exec, malloc-rw-x and mmap-rw-x, `shm_open`, `ftok`, `shmget`, `shmat`,
`shmdt`, `shmctl`) and that returns its failure value is followed by its error
report and by nothing else, and the process exits with status 1. A failing
`sigaction` is reported with `perror` and is not fatal: the run is the one of
the probe started after the report, with no handler installed. -/
theorem checked_failures_are_fatal (env : Env) (m : Mode) (prog : String)
    (rest : List String) :
    (∀ (pre : List Event) (e : Event) (post rep : List Event),
        (run env (prog :: m.name :: rest)).1 = pre ++ e :: post →
        checked_failure m e = some (rep, Halt.exit 1) →
        post = rep ∧ (run env (prog :: m.name :: rest)).2 = Halt.exit 1)
      ∧ (env.sigaction_rc = -1 →
          run env (prog :: m.name :: rest) =
            ((m.probe env
                { trace := [Event.sigaction (-1), Event.perror "sigaction"],
                  mem := (World.init env).mem,
                  handler := false }).bind (fun _ => (pure 0 : Proc Int))).outcome) := by
  constructor
  · intro pre e post rep htr hf
    exact ends_after_spec (checked_failure m) _ pre _
      (run_mode env m prog rest ▸ ends_after_checked env m) e post rep _ htr hf
  · intro hs
    unfold run
    rw [main_mode, outcome_mode_main_registered]
    simp only [World.registered, World.init, hs, if_true]
    rfl

/-- C4. The first event of every run is the call of `sigaction` that registers
`sigsegv_handler`, before the arguments are looked at and before any probe; a
call that does not fail installs the handler. Whenever the handler is invoked
it prints the message with the signal number and the address (`si_addr`) and
exits with status 1, whatever was to come next; so in a run with the handler
installed, the delivery of SIGSEGV is followed by that message only and the
process exits with status 1. -/
theorem sigsegv_handler_registered_and_fatal (env : Env) (argv : List String) :
    (∃ t, (run env argv).1 = Event.sigaction env.sigaction_rc :: t)
      ∧ (∀ w : World, env.sigaction_rc ≠ -1 →
          ∃ w1, sigaction env w = Step.ok env.sigaction_rc w1 ∧ w1.handler = true)
      ∧ (∀ (sig : Int) (addr : Nat) (w : World) (k : Unit → Proc Int),
          (sigsegv_handler sig addr >>= k) w =
            Step.halt (Halt.exit 1)
              { w with trace := w.trace
                  ++ [Event.printf sigsegv_fmt [Arg.int sig, Arg.ulong addr]] })
      ∧ (∀ (sig : Int) (addr : Nat),
          render sigsegv_fmt [Arg.int sig, Arg.ulong addr] =
            "SIGSEGV(" ++ (toString sig ++ (") recieved at address: 0x"
              ++ (String.mk (Nat.toDigits 16 addr) ++ ".\n"))))
      ∧ (env.sigaction_rc ≠ -1 →
          ∀ (pre : List Event) (a : Nat) (post : List Event),
            (run env argv).1 = pre ++ Event.sigsegv a :: post →
            post = [Event.printf sigsegv_fmt [Arg.int SIGSEGV, Arg.ulong a]]
              ∧ (run env argv).2 = Halt.exit 1) := by
  refine ⟨?_, ?_, ?_, ?_, ?_⟩
  · rcases run_cases env argv with ⟨_, hu⟩ | ⟨m, _, _, hm⟩
    · rw [hu]
      by_cases hs : env.sigaction_rc = -1 <;>
        simp [after, sig_events, World.registered, hs]
    · rw [hm]
      by_cases hs : env.sigaction_rc = -1 <;>
        simp [after, sig_events, World.registered, hs]
  · intro w hs
    refine ⟨_, sigaction_apply env w, ?_⟩
    simp [hs]
  · intro sig addr w k
    rfl
  · intro sig addr
    rfl
  · intro hs pre a post htr
    rcases run_cases env argv with ⟨_, hu⟩ | ⟨m, _, _, hm⟩
    · exact ends_after_spec handled_sigsegv _ pre _
        (hu ▸ ends_after_handled_usage env argv) _ post _ _ htr rfl
    · exact ends_after_spec handled_sigsegv _ pre _
        (hm ▸ ends_after_handled env m hs) _ post _ _ htr rfl

/-- C5. For each shared-memory mode, a run that starts with the object of the
probe absent, in which every OS call succeeds and the invoked code returns,
ends with exit status 0 and with the names as they were: the last event is the
removal of the object (`shm_unlink` of `ipc-mem-exec-test`, or
`shmctl(IPC_RMID)` of the segment `shmget` returned for the key of `ftok`). So
a second such run after the first also ends with status 0 and leaves the names
equal to the initial ones. -/
theorem shared_object_removed_on_success (env env2 : Env) (m : Mode) (prog : String)
    (rest : List String) (ns : Names) (hm : m.shared = true)
    (hs : all_succeed env = true) (ha : object_absent env m ns = true)
    (hs2 : all_succeed env2 = true) (ha2 : object_absent env2 m ns = true) :
    (run env (prog :: m.name :: rest)).2 = Halt.exit 0
      ∧ names_after ns (run env (prog :: m.name :: rest)).1 = ns
      ∧ (run env (prog :: m.name :: rest)).1.getLast? = some (removal_event env m)
      ∧ (run env2 (prog :: m.name :: rest)).2 = Halt.exit 0
      ∧ names_after (names_after ns (run env (prog :: m.name :: rest)).1)
          (run env2 (prog :: m.name :: rest)).1 = ns := by
  have h1 := names_success env m ns hm hs ha
  have h2 := names_success env2 m ns hm hs2 ha2
  rw [← run_mode env m prog rest] at h1
  rw [← run_mode env2 m prog rest] at h2
  refine ⟨h1.1, h1.2.1, h1.2.2, h2.1, ?_⟩
  rw [h1.2.1]
  exact h2.2.1

/-- C5 at a concrete input: mode shmget-rw twice, starting with no names. -/
theorem shared_object_removed_on_success_witness :
    all_succeed env_ok = true
      ∧ object_absent env_ok Mode.shmget_rw { posix := [], sysv := [] } = true
      ∧ (run env_ok ["mem-test-exec", "shmget-rw"]).2 = Halt.exit 0
      ∧ names_after { posix := [], sysv := [] } (run env_ok ["mem-test-exec", "shmget-rw"]).1
          = { posix := [], sysv := [] }
      ∧ (run env_ok ["mem-test-exec", "shmget-rw"]).1.getLast?
          = some (removal_event env_ok Mode.shmget_rw)
      ∧ (run env_ok ["mem-test-exec", "shmget-rw"]).2 = Halt.exit 0
      ∧ names_after
          (names_after { posix := [], sysv := [] } (run env_ok ["mem-test-exec", "shmget-rw"]).1)
          (run env_ok ["mem-test-exec", "shmget-rw"]).1 = { posix := [], sysv := [] } :=
  ⟨by simp [all_succeed, env_ok, toInt32, MAP_FAILED], by decide,
    shared_object_removed_on_success env_ok env_ok Mode.shmget_rw "mem-test-exec" []
      { posix := [], sysv := [] } rfl (by simp [all_succeed, env_ok, toInt32, MAP_FAILED])
      (by decide) (by simp [all_succeed, env_ok, toInt32, MAP_FAILED]) (by decide)⟩

/-- C6, counterexample. In the run of mode shmget-rwx in which `shmat` fails,
the process exits with status 1 right after the report: the segment `shmget`
has created, absent when the run started, is still there. -/
theorem failed_shmat_leaves_the_segment :
    run env_shmat_fails ["mem-test-exec", "shmget-rwx"] =
        ([Event.sigaction 0, Event.ftok "/bin/bash" 'Z' 0x5a010203,
          Event.shmget 0x5a010203 11 511 true 7, Event.shmat 7 MAP_FAILED,
          Event.perror "shmat"], Halt.exit 1)
      ∧ names_after { posix := [], sysv := [] }
          (run env_shmat_fails ["mem-test-exec", "shmget-rwx"]).1
          = { posix := [], sysv := [0x5a010203] } := by
  rw [show ["mem-test-exec", "shmget-rwx"] = "mem-test-exec" :: Mode.shmget_rwx.name :: [] from rfl,
    run_mode]
  constructor <;> decide

/-- C6, amended. For every run of a shared-memory mode that ends with `main`
returning 0 (and, in shm-open-rwx, whose `shm_unlink`, the result of which is
not tested, has not failed), the object the probe created has been removed:
every name present after the run was present before it. A run that ends in
another way, in `exit` after a failed call or in the handler of SIGSEGV or
killed by the signal, has removed nothing. -/
theorem shared_object_removed_on_return (env : Env) (m : Mode) (prog : String)
    (rest : List String) (ns : Names) (hm : m.shared = true) :
    ((run env (prog :: m.name :: rest)).2 = Halt.exit 0 →
        (m = Mode.shm_open_rwx → env.shm_unlink_rc ≠ -1) →
        (∀ x ∈ (names_after ns (run env (prog :: m.name :: rest)).1).posix, x ∈ ns.posix)
          ∧ (∀ k ∈ (names_after ns (run env (prog :: m.name :: rest)).1).sysv, k ∈ ns.sysv))
      ∧ ((run env (prog :: m.name :: rest)).2 ≠ Halt.exit 0 →
          ∀ e ∈ (run env (prog :: m.name :: rest)).1, e.removes = false) := by
  rw [run_mode]
  constructor
  · intro h hu
    exact names_subset env m ns hm hu h
  · intro h e he
    have := List.all_eq_true.mp (no_removal_on_failure env m hm h) e he
    simpa using this

/-- C6 amended at a concrete input. -/
theorem shared_object_removed_on_return_witness :
    ((run env_ok ["mem-test-exec", "shm-open-rwx"]).2 = Halt.exit 0 →
        (Mode.shm_open_rwx = Mode.shm_open_rwx → env_ok.shm_unlink_rc ≠ -1) →
        (∀ x ∈ (names_after { posix := ["other"], sysv := [] }
            (run env_ok ["mem-test-exec", "shm-open-rwx"]).1).posix, x ∈ ["other"])
          ∧ (∀ k ∈ (names_after { posix := ["other"], sysv := [] }
            (run env_ok ["mem-test-exec", "shm-open-rwx"]).1).sysv, k ∈ ([] : List Int)))
      ∧ ((run env_ok ["mem-test-exec", "shm-open-rwx"]).2 ≠ Halt.exit 0 →
          ∀ e ∈ (run env_ok ["mem-test-exec", "shm-open-rwx"]).1, e.removes = false) :=
  shared_object_removed_on_return env_ok Mode.shm_open_rwx "mem-test-exec" []
    { posix := ["other"], sysv := [] } rfl

/-- C7. The array `code` has 11 bytes, and so have `bss_code` and `stack_code`;
the 32-bit little-endian immediate at offsets 5..8 is 55, the instruction there
is `mov $55,%eax`, and the bytes, called with the return address on top of the
stack, return to it with 55 in `rax`. In every run of a mode, an invocation
that is not followed by SIGSEGV comes right after the first `printf` of
`EXECUTE_FUNC` with the label of the mode and right before the second one with
the value 55; together they print
`Executing machine code from '<label>': Executed successfully (55).` -/
theorem code_is_eleven_bytes_and_returns_55 (env : Env) (m : Mode) (prog : String)
    (rest : List String) :
    code.length = 11 ∧ sizeof_code = 11 ∧ sizeof_bss_code = 11 ∧ sizeof_stack_code = 11
      ∧ le32 code 5 = 55
      ∧ decode (code.drop 4) = some (Instr.mov_imm_eax 55, [0xc9, 0xc3])
      ∧ (∀ (c : Cpu) (ra sp : Nat), sp < 2 ^ 64 →
          x86_run sizeof_code code { c with rsp := sp, stack := c.store sp ra } = some (55, ra))
      ∧ (∀ (pre : List Event) (a : Nat) (post : List Event),
          (run env (prog :: m.name :: rest)).1 = pre ++ Event.call a :: post →
          (∀ b, post.head? ≠ some (Event.sigsegv b)) →
          pre.getLast?
              = some (Event.printf ("Executing machine code from '" ++ m.label ++ "': ") [])
            ∧ post.head? = some (Event.printf success_fmt [Arg.int 55]))
      ∧ render ("Executing machine code from '" ++ m.label ++ "': ") []
            ++ render success_fmt [Arg.int 55]
          = "Executing machine code from '" ++ m.label ++ "': Executed successfully (55).\n" := by
  refine ⟨rfl, rfl, rfl, rfl, by decide, by decide, x86_run_code, ?_, render_success m⟩
  intro pre a post htr hns
  have h := calls_framed_spec _ _ pre none _
    (run_mode env m prog rest ▸ calls_framed_expected env m) a post htr hns
  refine ⟨?_, h.2⟩
  have h1 := h.1
  cases hp : pre.getLast? with
  | none => simp [hp] at h1
  | some x => simpa [hp] using h1

/-- C8, counterexample. The probe of mode `data` works on static data, obtained
without execute permission, and invokes it with no call of `mprotect` at all. -/
theorem data_probe_requests_no_exec :
    run env_ok ["mem-test-exec", "data"] =
        ([Event.sigaction 0, Event.printf "Executing machine code from 'data segment': " [],
          Event.call 0x404000, Event.printf success_fmt [Arg.int 55]], Halt.exit 0)
      ∧ (run env_ok ["mem-test-exec", "data"]).1.all (fun e => !e.is_mprotect) = true := by
  rw [show ["mem-test-exec", "data"] = "mem-test-exec" :: Mode.data.name :: [] from rfl, run_mode]
  constructor <;> decide

/-- C8, amended. Only the probes of stack-exec, malloc-rw-x, mmap-rw-x and
shmget-rw-x ask for a change of permission: before such a probe invokes the
region at `a` it has called `mprotect` with
`PROT_READ | PROT_WRITE | PROT_EXEC` for the region (`exec_request`: from `a`
on, and in stack-exec from the start of the page of `a` up to the end of the
buffer). The probes of the other nine modes call no `mprotect` and invoke the
region with the permissions it was obtained with. -/
theorem exec_requested_by_four_probes (env : Env) (m : Mode) (prog : String)
    (rest : List String) :
    (m.reprotects = true →
        ∀ (pre : List Event) (a : Nat) (post : List Event),
          (run env (prog :: m.name :: rest)).1 = pre ++ Event.call a :: post →
          ∃ e ∈ pre, exec_request env m a e = true)
      ∧ (m.reprotects = false →
          ∀ e ∈ (run env (prog :: m.name :: rest)).1, e.is_mprotect = false) := by
  rw [run_mode]
  constructor
  · intro hm pre a post htr
    have h := calls_guarded_spec _ pre [] _ (calls_guarded_expected env m hm) a post htr
    simpa using h
  · intro hm e he
    have := List.all_eq_true.mp (no_mprotect_expected env m hm) e he
    simpa using this

/-- C9, counterexample. The probe of mode mmap-rw obtains its region with
`mmap`, invokes it and returns: the run ends with status 0 and holds no
`munmap`, nor any other release. -/
theorem mmap_probe_releases_nothing :
    run env_ok ["mem-test-exec", "mmap-rw"] =
        ([Event.sigaction 0, Event.mmap 11 PROT_RW (-1) 0x7f0000000000,
          Event.memcpy 0x7f0000000000 0x404000 11,
          Event.printf "Executing machine code from 'mmap (rw) memory': " [],
          Event.call 0x7f0000000000, Event.printf success_fmt [Arg.int 55]], Halt.exit 0)
      ∧ (run env_ok ["mem-test-exec", "mmap-rw"]).1.all (fun e => !e.is_release) = true := by
  rw [show ["mem-test-exec", "mmap-rw"] = "mem-test-exec" :: Mode.mmap_rw.name :: [] from rfl,
    run_mode]
  constructor <;> decide

/-- C9, amended. Only the probes of the four shared-memory modes release their
region: in a run of such a mode that ends with `main` returning 0, the
invocation at `a` is followed by the release of `a` (`munmap` in shm-open-rwx,
`shmdt` in the System V modes). The probes of the other nine modes, those on
`malloc`, `memalign` and anonymous `mmap` memory as those on static and stack
storage, release nothing. -/
theorem release_only_in_shared_probes (env : Env) (m : Mode) (prog : String)
    (rest : List String) :
    (m.shared = true → (run env (prog :: m.name :: rest)).2 = Halt.exit 0 →
        ∃ (pre : List Event) (a : Nat) (mid : List Event) (e : Event) (post : List Event),
          (run env (prog :: m.name :: rest)).1 = pre ++ Event.call a :: (mid ++ e :: post)
            ∧ releases a e = true)
      ∧ (m.shared = false →
          ∀ e ∈ (run env (prog :: m.name :: rest)).1, e.is_release = false) := by
  rw [run_mode]
  constructor
  · intro hm h
    exact released_after_call_spec _ _ (released_expected env m hm h)
  · intro hm e he
    have := List.all_eq_true.mp (no_release_expected env m hm) e he
    simpa using this

/-- C10. In `execute_from_stack_exec`, for a page size `2 ^ k` that fits in
`size_t` and a buffer address `start` with `start + 11` not wrapping:
`pagestart = start & -pagesize` is a multiple of the page size with
`pagestart ≤ start < pagestart + pagesize`, `end` is `start + 11`, and the
length `end - pagestart` passed to `mprotect` is `(start - pagestart) + 11`,
which is positive; so the range starts on a page boundary and ends where
`stack_code` ends. -/
theorem stack_exec_page_range (k start : Nat) (hk : k < 64) (hs : start + 11 < 2 ^ 64) :
    2 ^ k ∣ page_start start (2 ^ k)
      ∧ page_start start (2 ^ k) ≤ start
      ∧ start < page_start start (2 ^ k) + 2 ^ k
      ∧ buffer_end start = start + 11
      ∧ protect_len start (2 ^ k) = (start - page_start start (2 ^ k)) + 11
      ∧ 0 < protect_len start (2 ^ k)
      ∧ page_start start (2 ^ k) + protect_len start (2 ^ k) = start + 11 := by
  have hp : 0 < 2 ^ k := Nat.two_pow_pos k
  have hlt : 2 ^ k < 2 ^ 64 := Nat.pow_lt_pow_right (by norm_num) hk
  have hP : page_start start (2 ^ k) = 2 ^ k * (start / 2 ^ k) := by
    unfold page_start neg64
    rw [Nat.mod_eq_of_lt hlt, Nat.mod_eq_of_lt (by omega)]
    exact and_mask start k (by omega) hk
  have hle : 2 ^ k * (start / 2 ^ k) ≤ start := Nat.mul_div_le start (2 ^ k)
  have hgt : start < 2 ^ k * (start / 2 ^ k) + 2 ^ k := by
    have h1 := Nat.div_add_mod start (2 ^ k)
    have h2 := Nat.mod_lt start hp
    omega
  have he : buffer_end start = start + 11 := by
    unfold buffer_end add64
    exact Nat.mod_eq_of_lt hs
  have hl : protect_len start (2 ^ k) = (start - page_start start (2 ^ k)) + 11 := by
    unfold protect_len sub64
    rw [he, hP]
    omega
  refine ⟨hP ▸ Dvd.intro _ rfl, hP ▸ hle, hP ▸ hgt, he, hl, ?_, ?_⟩
  · omega
  · rw [hl, hP]
    omega

/-- C10 at a concrete input: pages of 4096 bytes. -/
theorem stack_exec_page_range_witness :
    12 < 64 ∧ 0x7ffc00001234 + 11 < 2 ^ 64
      ∧ 2 ^ 12 ∣ page_start 0x7ffc00001234 (2 ^ 12)
      ∧ page_start 0x7ffc00001234 (2 ^ 12) ≤ 0x7ffc00001234
      ∧ 0x7ffc00001234 < page_start 0x7ffc00001234 (2 ^ 12) + 2 ^ 12
      ∧ buffer_end 0x7ffc00001234 = 0x7ffc00001234 + 11
      ∧ protect_len 0x7ffc00001234 (2 ^ 12)
          = (0x7ffc00001234 - page_start 0x7ffc00001234 (2 ^ 12)) + 11
      ∧ 0 < protect_len 0x7ffc00001234 (2 ^ 12)
      ∧ page_start 0x7ffc00001234 (2 ^ 12) + protect_len 0x7ffc00001234 (2 ^ 12)
          = 0x7ffc00001234 + 11 :=
  ⟨by norm_num, by norm_num, stack_exec_page_range 12 0x7ffc00001234 (by norm_num) (by norm_num)⟩


end MemTestExec
